import Mathlib

/-!
# Article–folder aggregation service

A shallow embedding of `src/service.go` (package `articlefolder`) and theorems about it.

Modelling conventions

* Go `uint` identifiers are `Nat`, Go `int` / `int64` values are `Int`; the service performs no
  arithmetic on them, only the comparison `count == 0`.
* A Go `error` is a value of `GoError`; the `nil` error is `none`.
* A Go pointer result `*T` is `Option T`, the `nil` pointer being `none`; a Go pair
  `(*T, error)` is `Option T × Option GoError`, both components independent, as in Go.
* Dereferencing a `nil` pointer panics: operations return an `Outcome`.
* The two collaborators (`*article.Service`, `*folder.Service`) live in other repositories.
  They are parameters: each method is an arbitrary function of an abstract store `σ` and
  its arguments, returning its Go result and the next store.
* Every collaborator call is appended to a trace, so that "calls" and "does not call" are
  statements about the trace.
* The `context.Context` argument is forwarded untouched to every call and is not modelled.
-/

namespace ArticleFolder

/-! ## Data model -/

/-- A Go `error` value; `errors.go` builds them from message strings. -/
abbrev GoError := String

/-- The sentinel `ErrFolderNotFound` of `errors.go`. -/
def ErrFolderNotFound : GoError := "文件夹不存在"

/-- The sentinel `ErrFolderHasArticles` of `errors.go`. -/
def ErrFolderHasArticles : GoError := "文件夹下有文章，无法删除"

/-- Modelled from the spec: `articleModel.Article` is declared in the article domain package,
not in this repository. Spec §3: an identity, an optional folder reference (`FolderID`,
nullable) and arbitrary article fields opaque to this layer (`Fields`). -/
structure Article where
  ID : Nat
  FolderID : Option Nat
  Fields : String
  deriving DecidableEq, Repr

/-- The fields of `folderModel.Folder` that `service.go` reads: `f.ID`, `f.Name`, `f.Path`. -/
structure Folder where
  ID : Nat
  Name : String
  Path : String
  deriving DecidableEq, Repr

/-- The fields of `article.PageResult` that `service.go` reads (lines 94–124). `Records` is a
slice of `Article` values (line 106 copies an element and takes its address). -/
structure PageResult where
  Records : List Article
  Total : Int
  Size : Int
  Current : Int
  Pages : Int
  HasPrevious : Bool
  HasNext : Bool
  IsFirst : Bool
  IsLast : Bool
  deriving DecidableEq, Repr

/-- `BreadcrumbItem` (service.go:28). -/
structure BreadcrumbItem where
  ID : Nat
  Name : String
  deriving DecidableEq, Repr

/-- `FolderInfo` (service.go:34). -/
structure FolderInfo where
  ID : Nat
  Name : String
  Path : String
  Breadcrumb : List BreadcrumbItem
  deriving DecidableEq, Repr

/-- `ArticleWithFolder` (service.go:42). The embedded `*articleModel.Article` is never `nil` in
a value the service returns (it is dereferenced before every return), so it is an `Article`;
`Folder` is the pointer `*FolderInfo`. -/
structure ArticleWithFolder where
  Article : Article
  Folder : Option FolderInfo
  deriving DecidableEq, Repr

/-- `PageResultWithFolder` (service.go:129). -/
structure PageResultWithFolder where
  Records : List ArticleWithFolder
  Total : Int
  Size : Int
  Current : Int
  Pages : Int
  HasPrevious : Bool
  HasNext : Bool
  IsFirst : Bool
  IsLast : Bool
  deriving DecidableEq, Repr

/-- The paging and filter arguments of `ListArticlesWithFolder`, which the service forwards
as they are: `page, size int, ownerId *uint, ownerType, articleType, title string`. -/
structure ListQuery where
  page : Int
  size : Int
  ownerId : Option Nat
  ownerType : String
  articleType : String
  title : String
  deriving DecidableEq, Repr

/-- The result of running a Go function: it returns a value or panics. -/
inductive Outcome (α : Type) where
  | returned (val : α)
  | panicked
  deriving DecidableEq, Repr

/-! ## Collaborators -/

/-- One call made to a collaborator, with its arguments. -/
inductive Call where
  | GetArticle (articleID : Nat)
  | ListArticles (q : ListQuery) (folderID : Option Nat)
  | ListArticlesByFolderIDs (q : ListQuery) (folderIDs : List Nat)
  | MoveToFolder (articleID : Nat) (folderID : Option Nat)
  | CountByFolder (folderID : Nat)
  | GetFolder (folderID : Nat)
  | GetDescendantIDs (folderID : Nat)
  | GetAncestors (folderID : Nat)
  deriving DecidableEq, Repr

/-- The methods of `*article.Service` that `service.go` calls. -/
structure ArticleProvider (σ : Type) where
  GetArticle : σ → Nat → (Option Article × Option GoError) × σ
  ListArticles : σ → ListQuery → Option Nat → (Option PageResult × Option GoError) × σ
  ListArticlesByFolderIDs : σ → ListQuery → List Nat → (Option PageResult × Option GoError) × σ
  MoveToFolder : σ → Nat → Option Nat → Option GoError × σ
  CountByFolder : σ → Nat → (Int × Option GoError) × σ

/-- The methods of `*folder.Service` that `service.go` calls. `GetDescendantIDs` and
`GetAncestors` return slices (a `nil` slice is the empty list). -/
structure FolderProvider (σ : Type) where
  GetFolder : σ → Nat → (Option Folder × Option GoError) × σ
  GetDescendantIDs : σ → Nat → (List Nat × Option GoError) × σ
  GetAncestors : σ → Nat → (List Folder × Option GoError) × σ

/-- `Service` (service.go:14), built by `NewService` from the two collaborators. -/
structure Service (σ : Type) where
  articleService : ArticleProvider σ
  folderService : FolderProvider σ

/-- `NewService` (service.go:20). -/
def NewService {σ : Type} (articleService : ArticleProvider σ) (folderService : FolderProvider σ) :
    Service σ :=
  { articleService := articleService, folderService := folderService }

/-- The collaborators' store together with the calls made so far, oldest first. -/
structure World (σ : Type) where
  state : σ
  trace : List Call

/-- Run one collaborator method: record the call, thread the store. -/
def World.invoke {σ α : Type} (w : World σ) (c : Call) (f : σ → α × σ) : α × World σ :=
  ((f w.state).1, { state := (f w.state).2, trace := w.trace ++ [c] })

/-- Is the call one to the Folder Provider? -/
def Call.isFolderCall : Call → Bool
  | .GetFolder _ => true
  | .GetDescendantIDs _ => true
  | .GetAncestors _ => true
  | _ => false

/-- Is the call the Article Provider's move operation? -/
def Call.isMove : Call → Bool
  | .MoveToFolder _ _ => true
  | _ => false

/-- Is the call the Article Provider's single-folder list? -/
def Call.isListArticles : Call → Bool
  | .ListArticles _ _ => true
  | _ => false

/-! ## Operations -/

/-- The loop of `getFolderInfo` (service.go:178–184): append one item per ancestor. -/
def buildBreadcrumb (ancestors : List Folder) : List BreadcrumbItem :=
  ancestors.foldl (fun breadcrumb a => breadcrumb ++ [{ ID := a.ID, Name := a.Name }]) []

/-- `getFolderInfo` (service.go:170). The error of `GetAncestors` is discarded (`ancestors, _ :=`)
and the slice returned with it is used as it is; `f.ID` dereferences the folder pointer. -/
def getFolderInfo {σ : Type} (s : Service σ) (w : World σ) (folderID : Nat) :
    Outcome (Option FolderInfo × Option GoError) × World σ :=
  match w.invoke (.GetFolder folderID) (fun st => s.folderService.GetFolder st folderID) with
  | ((_, some err), w1) => (.returned (none, some err), w1)
  | ((f, none), w1) =>
    match w1.invoke (.GetAncestors folderID)
        (fun st => s.folderService.GetAncestors st folderID) with
    | ((ancestors, _), w2) =>
      let breadcrumb := buildBreadcrumb ancestors
      match f with
      | none => (.panicked, w2)
      | some f =>
        (.returned (some { ID := f.ID, Name := f.Name, Path := f.Path, Breadcrumb := breadcrumb },
          none), w2)

/-- `GetArticleWithFolder` (service.go:48). -/
def GetArticleWithFolder {σ : Type} (s : Service σ) (w : World σ) (articleID : Nat) :
    Outcome (Option ArticleWithFolder × Option GoError) × World σ :=
  match w.invoke (.GetArticle articleID) (fun st => s.articleService.GetArticle st articleID) with
  | ((_, some err), w1) => (.returned (none, some err), w1)
  | ((none, none), w1) => (.panicked, w1)
  | ((some art, none), w1) =>
    match art.FolderID with
    | none => (.returned (some { Article := art, Folder := none }, none), w1)
    | some fid =>
      match getFolderInfo s w1 fid with
      | (.panicked, w2) => (.panicked, w2)
      | (.returned (folderInfo, none), w2) =>
        (.returned (some { Article := art, Folder := folderInfo }, none), w2)
      | (.returned (_, some _), w2) =>
        (.returned (some { Article := art, Folder := none }, none), w2)

/-- `MoveArticleToFolder` (service.go:142): the returned `error`. -/
def MoveArticleToFolder {σ : Type} (s : Service σ) (w : World σ) (articleID : Nat)
    (folderID : Option Nat) : Option GoError × World σ :=
  match folderID with
  | some fid =>
    match w.invoke (.GetFolder fid) (fun st => s.folderService.GetFolder st fid) with
    | ((_, some err), w1) => (some err, w1)
    | ((_, none), w1) =>
      w1.invoke (.MoveToFolder articleID folderID)
        (fun st => s.articleService.MoveToFolder st articleID folderID)
  | none =>
    w.invoke (.MoveToFolder articleID folderID)
      (fun st => s.articleService.MoveToFolder st articleID folderID)

/-- `ValidateFolderExists` (service.go:156). -/
def ValidateFolderExists {σ : Type} (s : Service σ) (w : World σ) (folderID : Nat) :
    (Option Folder × Option GoError) × World σ :=
  w.invoke (.GetFolder folderID) (fun st => s.folderService.GetFolder st folderID)

/-- `CanDeleteFolder` (service.go:161): the triple `(bool, int64, error)`. -/
def CanDeleteFolder {σ : Type} (s : Service σ) (w : World σ) (folderID : Nat) :
    (Bool × Int × Option GoError) × World σ :=
  match w.invoke (.CountByFolder folderID)
      (fun st => s.articleService.CountByFolder st folderID) with
  | ((_, some err), w1) => ((false, 0, some err), w1)
  | ((count, none), w1) => ((decide (count = 0), count, none), w1)

/-! ### Listing -/

/-- Insert a key into a Go `map[uint]struct{}` used as a set (service.go:96); the map is
represented by its keys, each once. -/
def idSetAdd (m : List Nat) (id : Nat) : List Nat :=
  if id ∈ m then m else m ++ [id]

/-- Step 2 of `ListArticlesWithFolder` (service.go:93–98): the non-nil folder ids of the page. -/
def collectFolderIDs (records : List Article) : List Nat :=
  records.foldl
    (fun folderIDs art =>
      match art.FolderID with
      | some id => idSetAdd folderIDs id
      | none => folderIDs)
    []

/-- The order in which `for id := range m` visits the keys of a Go map is unspecified: any
arrangement of the keys. -/
structure MapOrder where
  order : List Nat → List Nat
  perm : ∀ keys, (order keys).Perm keys

/-- The assignment `result[id] = info` on a Go `map[uint]*FolderInfo`, represented by its
bindings. -/
def folderMapSet (m : List (Nat × Option FolderInfo)) (id : Nat) (info : Option FolderInfo) :
    List (Nat × Option FolderInfo) :=
  (id, info) :: m.filter (fun b => b.1 != id)

/-- The lookup `info, ok := folderMap[id]`: `none` when `ok` is false. -/
def folderMapGet (m : List (Nat × Option FolderInfo)) (id : Nat) : Option (Option FolderInfo) :=
  m.lookup id

/-- The loop of `batchGetFolderInfo` (service.go:198–203) over the keys in visiting order. -/
def batchLoop {σ : Type} (s : Service σ) :
    World σ → List Nat → List (Nat × Option FolderInfo) →
      Outcome (List (Nat × Option FolderInfo)) × World σ
  | w, [], result => (.returned result, w)
  | w, id :: rest, result =>
    match getFolderInfo s w id with
    | (.panicked, w1) => (.panicked, w1)
    | (.returned (info, none), w1) => batchLoop s w1 rest (folderMapSet result id info)
    | (.returned (_, some _), w1) => batchLoop s w1 rest result

/-- `batchGetFolderInfo` (service.go:195). -/
def batchGetFolderInfo {σ : Type} (s : Service σ) (mo : MapOrder) (w : World σ)
    (folderIDs : List Nat) : Outcome (List (Nat × Option FolderInfo)) × World σ :=
  batchLoop s w (mo.order folderIDs) []

/-- Step 4 of `ListArticlesWithFolder` (service.go:104–113): one record per article, in order. -/
def assembleRecords (folderMap : List (Nat × Option FolderInfo)) (records : List Article) :
    List ArticleWithFolder :=
  records.map fun art =>
    { Article := art
      Folder :=
        match art.FolderID with
        | some id =>
          match folderMapGet folderMap id with
          | some info => info
          | none => none
        | none => none }

/-- Step 1 of `ListArticlesWithFolder` (service.go:71–86): the values of the function-level
variables `result` and `err` after the `if`/`else`, and the world after the calls.

Line 76, `descendantIDs, err := ...`, declares a new `err` in the block of the `if`; the
assignments `result, err = ...` of lines 79 and 82 write the function-level `result` and that
inner `err`. The function-level `err` is written on line 85 only. -/
def fetchArticles {σ : Type} (s : Service σ) (w : World σ) (q : ListQuery)
    (folderID : Option Nat) : Option PageResult × Option GoError × World σ :=
  match folderID with
  | some fid =>
    match w.invoke (.GetDescendantIDs fid)
        (fun st => s.folderService.GetDescendantIDs st fid) with
    | ((_, some _), w1) =>
      match w1.invoke (.ListArticles q folderID)
          (fun st => s.articleService.ListArticles st q folderID) with
      | ((result, _), w2) => (result, none, w2)
    | ((descendantIDs, none), w1) =>
      match w1.invoke (.ListArticlesByFolderIDs q descendantIDs)
          (fun st => s.articleService.ListArticlesByFolderIDs st q descendantIDs) with
      | ((result, _), w2) => (result, none, w2)
  | none =>
    match w.invoke (.ListArticles q folderID)
        (fun st => s.articleService.ListArticles st q folderID) with
    | ((result, err), w1) => (result, err, w1)

/-- `ListArticlesWithFolder` (service.go:70). `result.Records` dereferences `result`. -/
def ListArticlesWithFolder {σ : Type} (s : Service σ) (mo : MapOrder) (w : World σ)
    (q : ListQuery) (folderID : Option Nat) :
    Outcome (Option PageResultWithFolder × Option GoError) × World σ :=
  match fetchArticles s w q folderID with
  | (_, some err, w1) => (.returned (none, some err), w1)
  | (none, none, w1) => (.panicked, w1)
  | (some result, none, w1) =>
    let folderIDs := collectFolderIDs result.Records
    match batchGetFolderInfo s mo w1 folderIDs with
    | (.panicked, w2) => (.panicked, w2)
    | (.returned folderMap, w2) =>
      (.returned
        (some
          { Records := assembleRecords folderMap result.Records
            Total := result.Total
            Size := result.Size
            Current := result.Current
            Pages := result.Pages
            HasPrevious := result.HasPrevious
            HasNext := result.HasNext
            IsFirst := result.IsFirst
            IsLast := result.IsLast },
          none), w2)

/-! ### Notions of the specification -/

/-- The Article Provider list call that `ListArticlesWithFolder` delegates to, named after the
specification (§4.1, folder-scope expansion policy): the unscoped list when `folderID` is nil;
otherwise, after the descendant lookup, the multi-folder list with the descendant ids when the
lookup succeeded and the single-folder list when it failed. The value is what that provider
call returned. -/
def delegatedListCall {σ : Type} (s : Service σ) (w : World σ) (q : ListQuery)
    (folderID : Option Nat) : Option PageResult × Option GoError :=
  match folderID with
  | none => (s.articleService.ListArticles w.state q none).1
  | some fid =>
    match s.folderService.GetDescendantIDs w.state fid with
    | ((descendantIDs, none), st1) =>
      (s.articleService.ListArticlesByFolderIDs st1 q descendantIDs).1
    | ((_, some _), st1) => (s.articleService.ListArticles st1 q (some fid)).1

/-- The folder-info resolutions made by the batch, in visiting order, named after the
specification ("batch resolution is per-id, independently fallible"): for each key the
outcome of its `getFolderInfo` call, made in the world the preceding calls left. -/
def resolutionLog {σ : Type} (s : Service σ) :
    World σ → List Nat → List (Nat × Outcome (Option FolderInfo × Option GoError))
  | _, [] => []
  | w, id :: rest => (id, (getFolderInfo s w id).1) :: resolutionLog s (getFolderInfo s w id).2 rest

/-- The folder fetch honours the Go convention for `(*T, error)` results: a nil error comes
with a non-nil folder. -/
def FolderFetchSound {σ : Type} (s : Service σ) : Prop :=
  ∀ st id f, (s.folderService.GetFolder st id).1 = (f, none) → f ≠ none

/-- The value `ListArticlesWithFolder` returns (service.go:115–125) for a page and a folder
map: the page's envelope fields around the assembled records. -/
def envelope (folderMap : List (Nat × Option FolderInfo)) (result : PageResult) :
    PageResultWithFolder :=
  { Records := assembleRecords folderMap result.Records
    Total := result.Total
    Size := result.Size
    Current := result.Current
    Pages := result.Pages
    HasPrevious := result.HasPrevious
    HasNext := result.HasNext
    IsFirst := result.IsFirst
    IsLast := result.IsLast }

/-- Is the call the Folder Provider's folder fetch? -/
def Call.isGetFolder : Call → Bool
  | .GetFolder _ => true
  | _ => false

/-- Is the call the Folder Provider's ancestor lookup? -/
def Call.isGetAncestors : Call → Bool
  | .GetAncestors _ => true
  | _ => false

/-- The calls of one full folder resolution per key, in visiting order: the most the batch
can call. -/
def resolutionCalls : List Nat → List Call
  | [] => []
  | id :: rest => .GetFolder id :: .GetAncestors id :: resolutionCalls rest

/-- The number of distinct non-nil folder ids among the records of a page, named after the
specification (§8.7, "M distinct non-null folder ids"). -/
def distinctFolderIDs (records : List Article) : Nat :=
  (records.filterMap (fun art => art.FolderID)).toFinset.card

/-- Folder resolution is deterministic, named after the specification ("each call's result a
function of its arguments"): what `GetFolder` and `GetAncestors` return does not depend on
the store. -/
def FolderDeterministic {σ : Type} (s : Service σ) : Prop :=
  (∀ st1 st2 id, (s.folderService.GetFolder st1 id).1 = (s.folderService.GetFolder st2 id).1) ∧
  ∀ st1 st2 id,
    (s.folderService.GetAncestors st1 id).1 = (s.folderService.GetAncestors st2 id).1

/-! ## A concrete pair of collaborators

Used to evaluate the operations on explicit inputs. The store counts the moves performed. -/

namespace Demo

/-- Articles 1–6: article 2 is unfiled, the others sit in folders 10, 20, 30, 10 and 11. -/
def article (id : Nat) : Article :=
  { ID := id
    FolderID :=
      if id = 1 then some 10 else if id = 3 then some 20 else if id = 4 then some 30
      else if id = 5 then some 10 else if id = 6 then some 11 else none
    Fields := "body" }

/-- A page envelope around the given records. -/
def page (records : List Article) : PageResult :=
  { Records := records, Total := 42, Size := 4, Current := 2, Pages := 11,
    HasPrevious := true, HasNext := true, IsFirst := false, IsLast := false }

/-- The article collaborator: articles 1–6 exist; listing by folder 60, or by the id set
`[50]`, fails; folder 10 holds two articles; counting folder 99 fails. -/
def articles : ArticleProvider Nat :=
  { GetArticle := fun st id =>
      if 1 ≤ id ∧ id ≤ 6 then ((some (article id), none), st)
      else ((none, some "article not found"), st)
    ListArticles := fun st _ folderID =>
      match folderID with
      | none => ((some (page [article 1, article 2, article 3, article 4, article 5]), none), st)
      | some fid =>
        if fid = 60 then ((none, some "list failed"), st)
        else if fid = 20 then ((some (page [article 3]), none), st)
        else ((some (page []), none), st)
    ListArticlesByFolderIDs := fun st _ folderIDs =>
      if folderIDs = [50] then ((none, some "list failed"), st)
      else if folderIDs = [10, 11] then ((some (page [article 1, article 5, article 6]), none), st)
      else ((some (page []), none), st)
    MoveToFolder := fun st _ _ => (none, st + 1)
    CountByFolder := fun st fid =>
      if fid = 99 then ((0, some "count failed"), st)
      else if fid = 10 then ((2, none), st)
      else ((0, none), st) }

/-- The folder collaborator: folder 10 (under root 1) and its child 11 resolve fully;
folder 20 does not exist; folder 30 exists but its ancestor lookup fails; the descendant
lookup fails for folders 20 and 60. -/
def folders : FolderProvider Nat :=
  { GetFolder := fun st id =>
      if id = 20 then ((none, some ErrFolderNotFound), st)
      else if id = 10 then ((some { ID := 10, Name := "docs", Path := "/1/10" }, none), st)
      else if id = 11 then ((some { ID := 11, Name := "notes", Path := "/1/10/11" }, none), st)
      else ((some { ID := id, Name := "misc", Path := "/misc" }, none), st)
    GetDescendantIDs := fun st id =>
      if id = 20 ∨ id = 60 then (([], some "descendants failed"), st)
      else if id = 10 then (([10, 11], none), st)
      else (([id], none), st)
    GetAncestors := fun st id =>
      if id = 30 then (([], some "ancestors failed"), st)
      else if id = 10 then
        (([{ ID := 1, Name := "root", Path := "/1" }, { ID := 10, Name := "docs", Path := "/1/10" }],
          none), st)
      else if id = 11 then
        (([{ ID := 1, Name := "root", Path := "/1" }, { ID := 10, Name := "docs", Path := "/1/10" },
            { ID := 11, Name := "notes", Path := "/1/10/11" }], none), st)
      else (([{ ID := id, Name := "misc", Path := "/misc" }], none), st) }

/-- The service over the two collaborators. -/
def service : Service Nat := NewService articles folders

/-- The initial world: no move performed, no call made. -/
def world : World Nat := { state := 0, trace := [] }

/-- A listing query. -/
def query : ListQuery :=
  { page := 2, size := 4, ownerId := none, ownerType := "user", articleType := "post", title := "" }

/-- Map iteration in insertion order. -/
def inOrder : MapOrder := { order := fun keys => keys, perm := fun _ => List.Perm.refl _ }

/-- Map iteration in reverse insertion order. -/
def reversed : MapOrder :=
  { order := fun keys => keys.reverse, perm := fun keys => List.reverse_perm keys }

/-- The `FolderInfo` of folder 10. -/
def docs : FolderInfo :=
  { ID := 10, Name := "docs", Path := "/1/10"
    Breadcrumb := [{ ID := 1, Name := "root" }, { ID := 10, Name := "docs" }] }

/-- The `FolderInfo` of folder 11. -/
def notes : FolderInfo :=
  { ID := 11, Name := "notes", Path := "/1/10/11"
    Breadcrumb :=
      [{ ID := 1, Name := "root" }, { ID := 10, Name := "docs" }, { ID := 11, Name := "notes" }] }

/-- The `FolderInfo` of folder 30, whose ancestor lookup fails. -/
def misc : FolderInfo := { ID := 30, Name := "misc", Path := "/misc", Breadcrumb := [] }

/-- The enriched page of the unscoped listing. -/
def listing : PageResultWithFolder :=
  { Records :=
      [{ Article := article 1, Folder := some docs }, { Article := article 2, Folder := none },
        { Article := article 3, Folder := none }, { Article := article 4, Folder := some misc },
        { Article := article 5, Folder := some docs }]
    Total := 42, Size := 4, Current := 2, Pages := 11,
    HasPrevious := true, HasNext := true, IsFirst := false, IsLast := false }

/-- The enriched page of the listing scoped to folder 10. -/
def listing10 : PageResultWithFolder :=
  { Records :=
      [{ Article := article 1, Folder := some docs }, { Article := article 5, Folder := some docs },
        { Article := article 6, Folder := some notes }]
    Total := 42, Size := 4, Current := 2, Pages := 11,
    HasPrevious := true, HasNext := true, IsFirst := false, IsLast := false }

/-- A folder collaborator whose ancestor lookup for folder 40 fails after having read the
root: it returns the part it read alongside its error. Otherwise as `folders`. -/
def partialFolders : FolderProvider Nat :=
  { GetFolder := folders.GetFolder
    GetDescendantIDs := folders.GetDescendantIDs
    GetAncestors := fun st id =>
      if id = 40 then (([{ ID := 1, Name := "root", Path := "/1" }], some "ancestors failed"), st)
      else folders.GetAncestors st id }

/-- The service over `articles` and `partialFolders`. -/
def partialService : Service Nat := NewService articles partialFolders

end Demo

/-! ## Auxiliary facts -/

section Lemmas

variable {σ : Type}

theorem buildBreadcrumb_foldl (ancestors : List Folder) (acc : List BreadcrumbItem) :
    ancestors.foldl (fun breadcrumb a => breadcrumb ++ [{ ID := a.ID, Name := a.Name }]) acc =
      acc ++ ancestors.map (fun a => ({ ID := a.ID, Name := a.Name } : BreadcrumbItem)) := by
  induction ancestors generalizing acc with
  | nil => simp
  | cons a rest ih => simp [List.foldl_cons, ih]

theorem buildBreadcrumb_eq_map (ancestors : List Folder) :
    buildBreadcrumb ancestors =
      ancestors.map (fun a => ({ ID := a.ID, Name := a.Name } : BreadcrumbItem)) := by
  simp [buildBreadcrumb, buildBreadcrumb_foldl]

/-- When the folder fetch returns an error, `getFolderInfo` returns it and stops. -/
theorem getFolderInfo_of_fetch_error (s : Service σ) (w : World σ) (folderID : Nat)
    (f : Option Folder) (e : GoError) (st1 : σ)
    (hfolder : s.folderService.GetFolder w.state folderID = ((f, some e), st1)) :
    getFolderInfo s w folderID =
      (.returned (none, some e), { state := st1, trace := w.trace ++ [.GetFolder folderID] }) := by
  simp [getFolderInfo, World.invoke, hfolder]

/-- When the folder fetch succeeds, `getFolderInfo` succeeds, whatever `GetAncestors` returns. -/
theorem getFolderInfo_of_fetch_ok (s : Service σ) (w : World σ) (folderID : Nat)
    (f : Folder) (st1 st2 : σ) (ancestors : List Folder) (aerr : Option GoError)
    (hfolder : s.folderService.GetFolder w.state folderID = ((some f, none), st1))
    (hanc : s.folderService.GetAncestors st1 folderID = ((ancestors, aerr), st2)) :
    getFolderInfo s w folderID =
      (.returned
        (some
          { ID := f.ID, Name := f.Name, Path := f.Path
            Breadcrumb := ancestors.map (fun a => { ID := a.ID, Name := a.Name }) },
          none),
        { state := st2, trace := w.trace ++ [.GetFolder folderID, .GetAncestors folderID] }) := by
  simp [getFolderInfo, World.invoke, hfolder, hanc, buildBreadcrumb_eq_map]

/-- A successful `getFolderInfo` carries a `FolderInfo`; a failed one carries none. -/
theorem getFolderInfo_shape (s : Service σ) (w : World σ) (folderID : Nat)
    (info : Option FolderInfo) (err : Option GoError)
    (h : (getFolderInfo s w folderID).1 = .returned (info, err)) :
    (err = none ∧ ∃ fi, info = some fi) ∨ (info = none ∧ ∃ e, err = some e) := by
  rcases hf : s.folderService.GetFolder w.state folderID with ⟨⟨f, e⟩, st1⟩
  cases e with
  | some e =>
    rw [getFolderInfo_of_fetch_error s w folderID f e st1 hf] at h
    simp only [Outcome.returned.injEq, Prod.mk.injEq] at h
    exact Or.inr ⟨h.1.symm, e, h.2.symm⟩
  | none =>
    cases f with
    | none => simp [getFolderInfo, World.invoke, hf] at h
    | some f =>
      rcases ha : s.folderService.GetAncestors st1 folderID with ⟨⟨ancestors, aerr⟩, st2⟩
      rw [getFolderInfo_of_fetch_ok s w folderID f st1 st2 ancestors aerr hf ha] at h
      simp only [Outcome.returned.injEq, Prod.mk.injEq] at h
      exact Or.inl ⟨h.2.symm, _, h.1.symm⟩

/-- The calls `getFolderInfo` makes are `GetFolder` and `GetAncestors` for its folder id. -/
theorem getFolderInfo_trace (s : Service σ) (w : World σ) (folderID : Nat) :
    ∃ calls, (getFolderInfo s w folderID).2.trace = w.trace ++ calls ∧
      ∀ c ∈ calls, c = .GetFolder folderID ∨ c = .GetAncestors folderID := by
  rcases hf : s.folderService.GetFolder w.state folderID with ⟨⟨f, e⟩, st1⟩
  cases e with
  | some e =>
    rw [getFolderInfo_of_fetch_error s w folderID f e st1 hf]
    exact ⟨[.GetFolder folderID], rfl, by simp⟩
  | none =>
    refine ⟨[.GetFolder folderID, .GetAncestors folderID], ?_, by simp⟩
    cases f with
    | none => simp [getFolderInfo, World.invoke, hf]
    | some f =>
      rcases ha : s.folderService.GetAncestors st1 folderID with ⟨⟨ancestors, aerr⟩, st2⟩
      rw [getFolderInfo_of_fetch_ok s w folderID f st1 st2 ancestors aerr hf ha]

/-- With a sound folder fetch, `getFolderInfo` does not panic. -/
theorem getFolderInfo_returns (s : Service σ) (hsound : FolderFetchSound s) (w : World σ)
    (folderID : Nat) : (getFolderInfo s w folderID).1 ≠ .panicked := by
  rcases hf : s.folderService.GetFolder w.state folderID with ⟨⟨f, e⟩, st1⟩
  cases e with
  | some e =>
    rw [getFolderInfo_of_fetch_error s w folderID f e st1 hf]
    simp
  | none =>
    cases f with
    | none => exact absurd rfl (hsound w.state folderID none (by rw [hf]))
    | some f =>
      rcases ha : s.folderService.GetAncestors st1 folderID with ⟨⟨ancestors, aerr⟩, st2⟩
      rw [getFolderInfo_of_fetch_ok s w folderID f st1 st2 ancestors aerr hf ha]
      simp

/-- The calls of the batch loop are `GetFolder` and `GetAncestors` calls for its keys. -/
theorem batchLoop_trace (s : Service σ) (keys : List Nat) :
    ∀ (w : World σ) (m : List (Nat × Option FolderInfo)),
      ∃ calls, (batchLoop s w keys m).2.trace = w.trace ++ calls ∧
        ∀ c ∈ calls, ∃ id ∈ keys, c = .GetFolder id ∨ c = .GetAncestors id := by
  induction keys with
  | nil => intro w m; exact ⟨[], by simp [batchLoop], by simp⟩
  | cons id rest ih =>
    intro w m
    obtain ⟨c1, hc1, hc1mem⟩ := getFolderInfo_trace s w id
    have hhead : ∀ c ∈ c1, ∃ k ∈ id :: rest, c = .GetFolder k ∨ c = .GetAncestors k :=
      fun c hc => ⟨id, List.mem_cons_self _ _, hc1mem c hc⟩
    rcases hg : getFolderInfo s w id with ⟨o, w1⟩
    rw [hg] at hc1
    simp only at hc1
    have hstep : ∀ m1, ∃ calls, (batchLoop s w1 rest m1).2.trace = w.trace ++ calls ∧
        ∀ c ∈ calls, ∃ k ∈ id :: rest, c = .GetFolder k ∨ c = .GetAncestors k := by
      intro m1
      obtain ⟨c2, hc2, hc2mem⟩ := ih w1 m1
      refine ⟨c1 ++ c2, ?_, ?_⟩
      · rw [hc2, hc1, List.append_assoc]
      · intro c hc
        rcases List.mem_append.mp hc with h | h
        · exact hhead c h
        · obtain ⟨k, hk, hck⟩ := hc2mem c h
          exact ⟨k, List.mem_cons_of_mem _ hk, hck⟩
    cases o with
    | panicked => exact ⟨c1, by simp [batchLoop, hg, hc1], hhead⟩
    | returned r =>
      rcases r with ⟨info, err⟩
      cases err with
      | none => simpa [batchLoop, hg] using hstep (folderMapSet m id info)
      | some e => simpa [batchLoop, hg] using hstep m

/-- With a sound folder fetch, the batch loop does not panic. -/
theorem batchLoop_returns (s : Service σ) (hsound : FolderFetchSound s) (keys : List Nat) :
    ∀ (w : World σ) (m : List (Nat × Option FolderInfo)),
      ∃ m1, (batchLoop s w keys m).1 = .returned m1 := by
  induction keys with
  | nil => intro w m; exact ⟨m, by simp [batchLoop]⟩
  | cons id rest ih =>
    intro w m
    have hnp := getFolderInfo_returns s hsound w id
    rcases hg : getFolderInfo s w id with ⟨o, w1⟩
    rw [hg] at hnp
    cases o with
    | panicked => exact absurd rfl hnp
    | returned r =>
      rcases r with ⟨info, err⟩
      cases err with
      | none => simpa [batchLoop, hg] using ih w1 (folderMapSet m id info)
      | some e => simpa [batchLoop, hg] using ih w1 m

/-- The records assembled for a page carry the page's articles, in order. -/
theorem assembleRecords_article (folderMap : List (Nat × Option FolderInfo))
    (records : List Article) :
    (assembleRecords folderMap records).map (fun rec => rec.Article) = records := by
  simp [assembleRecords, Function.comp_def]

/-- Step 1 with no folder id: one `ListArticles` call, both results kept. -/
theorem fetchArticles_unscoped (s : Service σ) (w : World σ) (q : ListQuery)
    (r : Option PageResult) (e : Option GoError) (st1 : σ)
    (hlist : s.articleService.ListArticles w.state q none = ((r, e), st1)) :
    fetchArticles s w q none =
      (r, e, { state := st1, trace := w.trace ++ [.ListArticles q none] }) := by
  simp [fetchArticles, World.invoke, hlist]

/-- Step 1 with a folder id whose descendant lookup succeeds: the multi-folder list is
called; its error does not reach the function-level `err`. -/
theorem fetchArticles_descendants (s : Service σ) (w : World σ) (q : ListQuery) (F : Nat)
    (D : List Nat) (r : Option PageResult) (e : Option GoError) (st1 st2 : σ)
    (hdesc : s.folderService.GetDescendantIDs w.state F = ((D, none), st1))
    (hlist : s.articleService.ListArticlesByFolderIDs st1 q D = ((r, e), st2)) :
    fetchArticles s w q (some F) =
      (r, none,
        { state := st2
          trace := w.trace ++ [.GetDescendantIDs F, .ListArticlesByFolderIDs q D] }) := by
  simp [fetchArticles, World.invoke, hdesc, hlist]

/-- Step 1 with a folder id whose descendant lookup fails: the single-folder list is called;
its error does not reach the function-level `err`. -/
theorem fetchArticles_fallback (s : Service σ) (w : World σ) (q : ListQuery) (F : Nat)
    (D : List Nat) (e0 : GoError) (r : Option PageResult) (e : Option GoError) (st1 st2 : σ)
    (hdesc : s.folderService.GetDescendantIDs w.state F = ((D, some e0), st1))
    (hlist : s.articleService.ListArticles st1 q (some F) = ((r, e), st2)) :
    fetchArticles s w q (some F) =
      (r, none,
        { state := st2, trace := w.trace ++ [.GetDescendantIDs F, .ListArticles q (some F)] }) := by
  simp [fetchArticles, World.invoke, hdesc, hlist]

/-- The function-level `result` of step 1 is the page the delegated list call returned. -/
theorem fetchArticles_result (s : Service σ) (w : World σ) (q : ListQuery)
    (folderID : Option Nat) :
    (fetchArticles s w q folderID).1 = (delegatedListCall s w q folderID).1 := by
  cases folderID with
  | none => simp [fetchArticles, delegatedListCall, World.invoke]
  | some F =>
    rcases hd : s.folderService.GetDescendantIDs w.state F with ⟨⟨D, e0⟩, st1⟩
    cases e0 <;> simp [fetchArticles, delegatedListCall, World.invoke, hd]

/-- With a folder id, the function-level `err` of step 1 stays nil. -/
theorem fetchArticles_scoped_err (s : Service σ) (w : World σ) (q : ListQuery) (F : Nat) :
    (fetchArticles s w q (some F)).2.1 = none := by
  rcases hd : s.folderService.GetDescendantIDs w.state F with ⟨⟨D, e0⟩, st1⟩
  cases e0 <;> simp [fetchArticles, World.invoke, hd]

/-- Steps 2–4 of `ListArticlesWithFolder`, once step 1 has produced a page and a nil
function-level error. -/
theorem ListArticlesWithFolder_of_fetched (s : Service σ) (mo : MapOrder) (w : World σ)
    (q : ListQuery) (folderID : Option Nat) (p : PageResult) (w1 : World σ)
    (hfetch : fetchArticles s w q folderID = (some p, none, w1)) :
    ListArticlesWithFolder s mo w q folderID =
      match batchGetFolderInfo s mo w1 (collectFolderIDs p.Records) with
      | (.panicked, w2) => (.panicked, w2)
      | (.returned folderMap, w2) => (.returned (some (envelope folderMap p), none), w2) := by
  simp only [ListArticlesWithFolder, hfetch, envelope]

/-- A returned page comes from a page of step 1, enriched through the batch's folder map. -/
theorem ListArticlesWithFolder_returned (s : Service σ) (mo : MapOrder) (w : World σ)
    (q : ListQuery) (folderID : Option Nat) (page : PageResultWithFolder)
    (err : Option GoError)
    (h : (ListArticlesWithFolder s mo w q folderID).1 = .returned (some page, err)) :
    ∃ p w1 folderMap w2, fetchArticles s w q folderID = (some p, none, w1) ∧
      batchGetFolderInfo s mo w1 (collectFolderIDs p.Records) = (.returned folderMap, w2) ∧
      page = envelope folderMap p ∧ err = none := by
  rcases hfetch : fetchArticles s w q folderID with ⟨r, e, w1⟩
  cases e with
  | some e => simp [ListArticlesWithFolder, hfetch] at h
  | none =>
    cases r with
    | none => simp [ListArticlesWithFolder, hfetch] at h
    | some p =>
      rw [ListArticlesWithFolder_of_fetched s mo w q folderID p w1 hfetch] at h
      rcases hb : batchGetFolderInfo s mo w1 (collectFolderIDs p.Records) with ⟨o, w2⟩
      rw [hb] at h
      cases o with
      | panicked => simp at h
      | returned folderMap =>
        simp only [Outcome.returned.injEq, Prod.mk.injEq, Option.some.injEq] at h
        exact ⟨p, w1, folderMap, w2, rfl, hb, h.1.symm, h.2.symm⟩

/-- After step 1 has produced a page, the calls made are folder resolutions; the outcome is
a panic or the enriched page with a nil error, and it is the page when the folder fetch is
sound. -/
theorem ListArticlesWithFolder_after_fetch (s : Service σ) (mo : MapOrder) (w : World σ)
    (q : ListQuery) (folderID : Option Nat) (p : PageResult) (w1 : World σ)
    (hfetch : fetchArticles s w q folderID = (some p, none, w1)) :
    (∃ calls, (ListArticlesWithFolder s mo w q folderID).2.trace = w1.trace ++ calls ∧
      ∀ c ∈ calls, ∃ id, c = .GetFolder id ∨ c = .GetAncestors id) ∧
    (FolderFetchSound s → ∃ folderMap,
      (ListArticlesWithFolder s mo w q folderID).1 =
        .returned (some (envelope folderMap p), none)) := by
  rw [ListArticlesWithFolder_of_fetched s mo w q folderID p w1 hfetch]
  obtain ⟨calls, hcalls, hmem⟩ :=
    batchLoop_trace s (mo.order (collectFolderIDs p.Records)) w1 []
  have hmem2 : ∀ c ∈ calls, ∃ id, c = Call.GetFolder id ∨ c = Call.GetAncestors id :=
    fun c hc => (hmem c hc).imp fun _ h => h.2
  constructor
  · refine ⟨calls, ?_, hmem2⟩
    rcases hb : batchGetFolderInfo s mo w1 (collectFolderIDs p.Records) with ⟨o, w2⟩
    have hw2 : w2.trace = w1.trace ++ calls := by
      have := hcalls
      rw [show batchLoop s w1 (mo.order (collectFolderIDs p.Records)) [] = (o, w2) from hb]
        at this
      exact this
    cases o <;> simpa using hw2
  · intro hsound
    obtain ⟨m1, hm1⟩ := batchLoop_returns s hsound (mo.order (collectFolderIDs p.Records)) w1 []
    rcases hb : batchGetFolderInfo s mo w1 (collectFolderIDs p.Records) with ⟨o, w2⟩
    rw [show batchLoop s w1 (mo.order (collectFolderIDs p.Records)) [] = (o, w2) from hb] at hm1
    simp only at hm1
    subst hm1
    exact ⟨m1, rfl⟩

/-- With a folder id, `ListArticlesWithFolder` never returns an error. -/
theorem ListArticlesWithFolder_scoped_no_error (s : Service σ) (mo : MapOrder) (w : World σ)
    (q : ListQuery) (F : Nat) (x : Option PageResultWithFolder) (err : Option GoError)
    (h : (ListArticlesWithFolder s mo w q (some F)).1 = .returned (x, err)) : err = none := by
  have herr := fetchArticles_scoped_err s w q F
  rcases hfetch : fetchArticles s w q (some F) with ⟨r, e, w1⟩
  rw [hfetch] at herr
  simp only at herr
  subst herr
  cases r with
  | none => simp [ListArticlesWithFolder, hfetch] at h
  | some p =>
    rw [ListArticlesWithFolder_of_fetched s mo w q (some F) p w1 hfetch] at h
    rcases hb : batchGetFolderInfo s mo w1 (collectFolderIDs p.Records) with ⟨o, w2⟩
    rw [hb] at h
    cases o with
    | panicked => simp at h
    | returned folderMap =>
      simp only [Outcome.returned.injEq, Prod.mk.injEq] at h
      exact h.2.symm

/-- Without a folder id, an error of the list call is returned unchanged, with no page. -/
theorem ListArticlesWithFolder_unscoped_error (s : Service σ) (mo : MapOrder) (w : World σ)
    (q : ListQuery) (r : Option PageResult) (e : GoError) (st1 : σ)
    (hlist : s.articleService.ListArticles w.state q none = ((r, some e), st1)) :
    (ListArticlesWithFolder s mo w q none).1 = .returned (none, some e) := by
  simp [ListArticlesWithFolder, fetchArticles_unscoped s w q r (some e) st1 hlist]

/-- Reading the key just written gives the value written. -/
theorem folderMapGet_set_self (m : List (Nat × Option FolderInfo)) (k : Nat)
    (v : Option FolderInfo) : folderMapGet (folderMapSet m k v) k = some v := by
  simp [folderMapGet, folderMapSet, List.lookup_cons]

/-- Writing a key leaves the other keys as they were. -/
theorem folderMapGet_set_other (m : List (Nat × Option FolderInfo)) (k id : Nat)
    (v : Option FolderInfo) (h : id ≠ k) :
    folderMapGet (folderMapSet m k v) id = folderMapGet m id := by
  have hbeq : (id == k) = false := by simpa using h
  have hfilter : List.lookup id (m.filter (fun b => b.1 != k)) = List.lookup id m := by
    induction m with
    | nil => rfl
    | cons b rest ih =>
      rcases b with ⟨a, u⟩
      by_cases hb : a = k
      · subst hb
        simp [List.filter_cons, List.lookup_cons, hbeq, ih]
      · by_cases hid : id = a
        · subst hid
          simp [List.filter_cons, List.lookup_cons, hb]
        · have hida : (id == a) = false := by simpa using hid
          simp [List.filter_cons, List.lookup_cons, hida, ih, hb]
  simp [folderMapGet, folderMapSet, List.lookup_cons, hbeq, hfilter]

theorem idSetAdd_mem (m : List Nat) (k id : Nat) : id ∈ idSetAdd m k ↔ id ∈ m ∨ id = k := by
  unfold idSetAdd
  split
  · constructor
    · exact Or.inl
    · rintro (h | h)
      · exact h
      · subst h; assumption
  · simp

theorem idSetAdd_nodup (m : List Nat) (k : Nat) (h : m.Nodup) : (idSetAdd m k).Nodup := by
  unfold idSetAdd
  split
  · exact h
  · rename_i hk
    exact List.Nodup.append h (List.nodup_singleton k) (by simpa using hk)

theorem collectFolderIDs_foldl (records : List Article) :
    ∀ acc : List Nat, acc.Nodup →
      (records.foldl
        (fun folderIDs art =>
          match art.FolderID with
          | some id => idSetAdd folderIDs id
          | none => folderIDs) acc).Nodup ∧
      ∀ id, id ∈ records.foldl
        (fun folderIDs art =>
          match art.FolderID with
          | some id => idSetAdd folderIDs id
          | none => folderIDs) acc ↔
        id ∈ acc ∨ ∃ art ∈ records, art.FolderID = some id := by
  induction records with
  | nil => intro acc h; simp [h]
  | cons a rest ih =>
    intro acc hacc
    simp only [List.foldl_cons]
    cases hfa : a.FolderID with
    | none =>
      obtain ⟨h1, h2⟩ := ih acc hacc
      refine ⟨h1, fun id => ?_⟩
      rw [h2 id]
      simp [hfa]
    | some k =>
      obtain ⟨h1, h2⟩ := ih (idSetAdd acc k) (idSetAdd_nodup acc k hacc)
      refine ⟨h1, fun id => ?_⟩
      rw [h2 id, idSetAdd_mem]
      simp only [List.mem_cons, exists_eq_or_imp, hfa, Option.some.injEq]
      constructor
      · rintro ((h | h) | h)
        · exact Or.inl h
        · exact Or.inr (Or.inl h.symm)
        · exact Or.inr (Or.inr h)
      · rintro (h | h | h)
        · exact Or.inl (Or.inl h)
        · exact Or.inl (Or.inr h.symm)
        · exact Or.inr h

/-- The collected folder ids are distinct. -/
theorem collectFolderIDs_nodup (records : List Article) : (collectFolderIDs records).Nodup :=
  (collectFolderIDs_foldl records [] List.nodup_nil).1

/-- The collected folder ids are the non-nil folder ids of the records. -/
theorem collectFolderIDs_mem (records : List Article) (id : Nat) :
    id ∈ collectFolderIDs records ↔ ∃ art ∈ records, art.FolderID = some id := by
  have h := (collectFolderIDs_foldl records [] List.nodup_nil).2 id
  simpa [collectFolderIDs] using h

/-- The resolution log has one entry per key, in visiting order. -/
theorem resolutionLog_keys (s : Service σ) (keys : List Nat) :
    ∀ w : World σ, (resolutionLog s w keys).map Prod.fst = keys := by
  induction keys with
  | nil => intro w; rfl
  | cons k rest ih => intro w; simp [resolutionLog, ih]

/-- What a returned batch holds: keys outside the visited ones are untouched; no resolution
panicked; a successful resolution is stored under its key; a failed one stores nothing. -/
theorem batchLoop_spec (s : Service σ) (keys : List Nat) :
    ∀ (w : World σ) (m0 m : List (Nat × Option FolderInfo)) (w2 : World σ),
      batchLoop s w keys m0 = (.returned m, w2) → keys.Nodup →
      (∀ id, id ∉ keys → folderMapGet m id = folderMapGet m0 id) ∧
      ∀ id o, (id, o) ∈ resolutionLog s w keys →
        o ≠ .panicked ∧
        (∀ info, o = .returned (info, none) → folderMapGet m id = some info) ∧
        (∀ x e, o = .returned (x, some e) → folderMapGet m id = folderMapGet m0 id) := by
  induction keys with
  | nil =>
    intro w m0 m w2 h _
    simp only [batchLoop, Prod.mk.injEq, Outcome.returned.injEq] at h
    simp [resolutionLog, h.1]
  | cons k rest ih =>
    intro w m0 m w2 h hnodup
    obtain ⟨hk, hrest⟩ := List.nodup_cons.mp hnodup
    rcases hg : getFolderInfo s w k with ⟨o1, w1⟩
    have hlog : resolutionLog s w (k :: rest) = (k, o1) :: resolutionLog s w1 rest := by
      simp [resolutionLog, hg]
    have hne : ∀ id o, (id, o) ∈ resolutionLog s w1 rest → id ≠ k := by
      intro id o hmem hid
      have : id ∈ (resolutionLog s w1 rest).map Prod.fst := List.mem_map.mpr ⟨(id, o), hmem, rfl⟩
      rw [resolutionLog_keys] at this
      exact hk (hid ▸ this)
    cases o1 with
    | panicked => simp [batchLoop, hg] at h
    | returned r =>
      rcases r with ⟨info1, err1⟩
      cases err1 with
      | none =>
        have h1 : batchLoop s w1 rest (folderMapSet m0 k info1) = (.returned m, w2) := by
          simpa [batchLoop, hg] using h
        obtain ⟨ihout, ihin⟩ := ih w1 (folderMapSet m0 k info1) m w2 h1 hrest
        constructor
        · intro id hid
          have hidk : id ≠ k := fun hc => hid (hc ▸ List.mem_cons_self _ _)
          rw [ihout id (fun hc => hid (List.mem_cons_of_mem _ hc)),
            folderMapGet_set_other m0 k id info1 hidk]
        · intro id o hmem
          rw [hlog] at hmem
          rcases List.mem_cons.mp hmem with heq | hmem
          · simp only [Prod.mk.injEq] at heq
            obtain ⟨rfl, rfl⟩ := heq
            refine ⟨by simp, ?_, by simp⟩
            intro info hinfo
            simp only [Outcome.returned.injEq, Prod.mk.injEq, and_true] at hinfo
            subst hinfo
            rw [ihout id hk, folderMapGet_set_self]
          · obtain ⟨hp, hs, hf⟩ := ihin id o hmem
            refine ⟨hp, hs, ?_⟩
            intro x e hx
            rw [hf x e hx, folderMapGet_set_other m0 k id info1 (hne id o hmem)]
      | some e1 =>
        have h1 : batchLoop s w1 rest m0 = (.returned m, w2) := by
          simpa [batchLoop, hg] using h
        obtain ⟨ihout, ihin⟩ := ih w1 m0 m w2 h1 hrest
        constructor
        · intro id hid
          exact ihout id (fun hc => hid (List.mem_cons_of_mem _ hc))
        · intro id o hmem
          rw [hlog] at hmem
          rcases List.mem_cons.mp hmem with heq | hmem
          · simp only [Prod.mk.injEq] at heq
            obtain ⟨rfl, rfl⟩ := heq
            refine ⟨by simp, by simp, ?_⟩
            intro _ _ _
            exact ihout id hk
          · exact ihin id o hmem

/-- A returned batch binds a key to a value exactly when the resolution of that key
succeeded with that value. -/
theorem batchLoop_get_iff (s : Service σ) (keys : List Nat) (w : World σ)
    (m : List (Nat × Option FolderInfo)) (w2 : World σ)
    (h : batchLoop s w keys [] = (.returned m, w2)) (hnodup : keys.Nodup) (id : Nat)
    (info : Option FolderInfo) :
    folderMapGet m id = some info ↔ (id, .returned (info, none)) ∈ resolutionLog s w keys := by
  obtain ⟨hout, hin⟩ := batchLoop_spec s keys w [] m w2 h hnodup
  constructor
  · intro hget
    by_cases hid : id ∈ keys
    · rw [← resolutionLog_keys s keys w] at hid
      obtain ⟨⟨id1, o⟩, hmem, hfst⟩ := List.mem_map.mp hid
      simp only at hfst
      subst hfst
      obtain ⟨hp, hs, hf⟩ := hin id1 o hmem
      cases o with
      | panicked => exact absurd rfl hp
      | returned r =>
        rcases r with ⟨x, err⟩
        cases err with
        | none =>
          have := hs x rfl
          rw [hget] at this
          simp only [Option.some.injEq] at this
          subst this
          exact hmem
        | some e =>
          have := hf x e rfl
          rw [hget] at this
          simp [folderMapGet] at this
    · have := hout id hid
      rw [hget] at this
      simp [folderMapGet] at this
  · intro hmem
    exact (hin id _ hmem).2.1 info rfl

/-- The calls of `getFolderInfo`: the folder fetch, then the ancestor lookup unless the fetch
returned an error. -/
theorem getFolderInfo_calls (s : Service σ) (w : World σ) (folderID : Nat) :
    ∃ calls, (getFolderInfo s w folderID).2.trace = w.trace ++ calls ∧
      (calls = [.GetFolder folderID] ∨ calls = [.GetFolder folderID, .GetAncestors folderID]) := by
  rcases hf : s.folderService.GetFolder w.state folderID with ⟨⟨f, e⟩, st1⟩
  cases e with
  | some e =>
    rw [getFolderInfo_of_fetch_error s w folderID f e st1 hf]
    exact ⟨[.GetFolder folderID], rfl, Or.inl rfl⟩
  | none =>
    refine ⟨[.GetFolder folderID, .GetAncestors folderID], ?_, Or.inr rfl⟩
    cases f with
    | none => simp [getFolderInfo, World.invoke, hf]
    | some f =>
      rcases ha : s.folderService.GetAncestors st1 folderID with ⟨⟨ancestors, aerr⟩, st2⟩
      rw [getFolderInfo_of_fetch_ok s w folderID f st1 st2 ancestors aerr hf ha]

/-- The calls of the batch loop are taken, in order, from one full resolution per key. -/
theorem batchLoop_calls (s : Service σ) (keys : List Nat) :
    ∀ (w : World σ) (m : List (Nat × Option FolderInfo)),
      ∃ calls, (batchLoop s w keys m).2.trace = w.trace ++ calls ∧
        calls.Sublist (resolutionCalls keys) := by
  induction keys with
  | nil => intro w m; exact ⟨[], by simp [batchLoop], by simp [resolutionCalls]⟩
  | cons id rest ih =>
    intro w m
    obtain ⟨c1, hc1, hshape⟩ := getFolderInfo_calls s w id
    have hsub1 : c1.Sublist [.GetFolder id, .GetAncestors id] := by
      rcases hshape with h | h
      · rw [h]
        exact List.Sublist.cons₂ _ (List.nil_sublist _)
      · rw [h]
    rcases hg : getFolderInfo s w id with ⟨o, w1⟩
    rw [hg] at hc1
    simp only at hc1
    have hstep : ∀ m1, ∃ calls, (batchLoop s w1 rest m1).2.trace = w.trace ++ calls ∧
        calls.Sublist (resolutionCalls (id :: rest)) := by
      intro m1
      obtain ⟨c2, hc2, hsub2⟩ := ih w1 m1
      refine ⟨c1 ++ c2, by rw [hc2, hc1, List.append_assoc], ?_⟩
      exact List.Sublist.append hsub1 hsub2
    cases o with
    | panicked =>
      refine ⟨c1, by simp [batchLoop, hg, hc1], ?_⟩
      exact hsub1.trans (List.sublist_append_left _ (resolutionCalls rest))
    | returned r =>
      rcases r with ⟨info, err⟩
      cases err with
      | none => simpa [batchLoop, hg] using hstep (folderMapSet m id info)
      | some e => simpa [batchLoop, hg] using hstep m

theorem resolutionCalls_count (keys : List Nat) (id : Nat) :
    (resolutionCalls keys).count (.GetFolder id) = keys.count id ∧
    (resolutionCalls keys).count (.GetAncestors id) = keys.count id := by
  induction keys with
  | nil => simp [resolutionCalls]
  | cons k rest ih =>
    by_cases hk : k = id
    · subst hk
      simp [resolutionCalls, List.count_cons, ih.1, ih.2]
    · have hk2 : ¬ id = k := fun h => hk h.symm
      simp [resolutionCalls, List.count_cons, ih.1, ih.2, hk]

theorem resolutionCalls_filter (keys : List Nat) :
    ((resolutionCalls keys).filter Call.isGetFolder).length = keys.length ∧
    ((resolutionCalls keys).filter Call.isGetAncestors).length = keys.length := by
  induction keys with
  | nil => simp [resolutionCalls]
  | cons k rest ih =>
    simp [resolutionCalls, List.filter_cons, Call.isGetFolder, Call.isGetAncestors, ih.1, ih.2]

/-- The calls of step 1 are descendant lookups and list calls, no folder resolution. -/
theorem fetchArticles_calls (s : Service σ) (w : World σ) (q : ListQuery)
    (folderID : Option Nat) :
    ∃ calls, (fetchArticles s w q folderID).2.2.trace = w.trace ++ calls ∧
      ∀ c ∈ calls, c.isGetFolder = false ∧ c.isGetAncestors = false := by
  cases folderID with
  | none =>
    exact ⟨[.ListArticles q none], by simp [fetchArticles, World.invoke],
      by simp [Call.isGetFolder, Call.isGetAncestors]⟩
  | some F =>
    rcases hd : s.folderService.GetDescendantIDs w.state F with ⟨⟨D, e0⟩, st1⟩
    cases e0 with
    | none =>
      exact ⟨[.GetDescendantIDs F, .ListArticlesByFolderIDs q D],
        by simp [fetchArticles, World.invoke, hd],
        by simp [Call.isGetFolder, Call.isGetAncestors]⟩
    | some e0 =>
      exact ⟨[.GetDescendantIDs F, .ListArticles q (some F)],
        by simp [fetchArticles, World.invoke, hd],
        by simp [Call.isGetFolder, Call.isGetAncestors]⟩

/-- The world `ListArticlesWithFolder` ends in: the world of step 1 when the function-level
error is set or the page is nil, the world after the batch otherwise. -/
theorem ListArticlesWithFolder_world (s : Service σ) (mo : MapOrder) (w : World σ)
    (q : ListQuery) (folderID : Option Nat) :
    (ListArticlesWithFolder s mo w q folderID).2 =
      match fetchArticles s w q folderID with
      | (some p, none, w1) => (batchGetFolderInfo s mo w1 (collectFolderIDs p.Records)).2
      | (_, _, w1) => w1 := by
  rcases hfetch : fetchArticles s w q folderID with ⟨r, e, w1⟩
  cases e with
  | some e => simp [ListArticlesWithFolder, hfetch]
  | none =>
    cases r with
    | none => simp [ListArticlesWithFolder, hfetch]
    | some p =>
      rw [ListArticlesWithFolder_of_fetched s mo w q folderID p w1 hfetch]
      rcases hb : batchGetFolderInfo s mo w1 (collectFolderIDs p.Records) with ⟨o, w2⟩
      cases o <;> simp [hb]

/-- The number of distinct non-nil folder ids of a page is the number of collected keys. -/
theorem distinctFolderIDs_eq (records : List Article) :
    distinctFolderIDs records = (collectFolderIDs records).length := by
  unfold distinctFolderIDs
  rw [← List.toFinset_card_of_nodup (collectFolderIDs_nodup records)]
  congr 1
  ext id
  simp only [List.mem_toFinset, List.mem_filterMap, collectFolderIDs_mem]

/-- There are at most as many distinct folder ids as records. -/
theorem distinctFolderIDs_le (records : List Article) :
    distinctFolderIDs records ≤ records.length :=
  (List.toFinset_card_le _).trans (List.length_filterMap_le _ _)

/-- The calls of `ListArticlesWithFolder`: those of step 1, then calls taken in order from
one full resolution per distinct folder id of the page. -/
theorem ListArticlesWithFolder_calls (s : Service σ) (mo : MapOrder) (w : World σ)
    (q : ListQuery) (folderID : Option Nat) (p : PageResult)
    (hpage : (delegatedListCall s w q folderID).1 = some p) :
    ∃ fcalls bcalls,
      (ListArticlesWithFolder s mo w q folderID).2.trace = w.trace ++ (fcalls ++ bcalls) ∧
      (∀ c ∈ fcalls, c.isGetFolder = false ∧ c.isGetAncestors = false) ∧
      bcalls.Sublist (resolutionCalls (mo.order (collectFolderIDs p.Records))) := by
  obtain ⟨fcalls, hf, hfmem⟩ := fetchArticles_calls s w q folderID
  have hw := ListArticlesWithFolder_world s mo w q folderID
  have hres := fetchArticles_result s w q folderID
  rcases hfetch : fetchArticles s w q folderID with ⟨r, e, w1⟩
  rw [hfetch] at hf hw hres
  rw [hpage] at hres
  simp only at hf hres
  subst hres
  cases e with
  | some e =>
    simp only at hw
    exact ⟨fcalls, [], by rw [hw, hf, List.append_nil], hfmem, List.nil_sublist _⟩
  | none =>
    simp only at hw
    obtain ⟨bcalls, hb, hsub⟩ :=
      batchLoop_calls s (mo.order (collectFolderIDs p.Records)) w1 []
    refine ⟨fcalls, bcalls, ?_, hfmem, hsub⟩
    rw [hw]
    show (batchLoop s w1 (mo.order (collectFolderIDs p.Records)) []).2.trace = _
    rw [hb, hf, List.append_assoc]

/-- With deterministic folder resolution the outcome of `getFolderInfo` depends on the
folder id only. -/
theorem getFolderInfo_det (s : Service σ) (hdet : FolderDeterministic s) (w1 w2 : World σ)
    (folderID : Nat) : (getFolderInfo s w1 folderID).1 = (getFolderInfo s w2 folderID).1 := by
  rcases hf1 : s.folderService.GetFolder w1.state folderID with ⟨⟨f1, e1⟩, sa⟩
  rcases hf2 : s.folderService.GetFolder w2.state folderID with ⟨⟨f2, e2⟩, sb⟩
  have hfe := hdet.1 w1.state w2.state folderID
  rw [hf1, hf2] at hfe
  simp only [Prod.mk.injEq] at hfe
  obtain ⟨rfl, rfl⟩ := hfe
  cases e1 with
  | some e =>
    rw [getFolderInfo_of_fetch_error s w1 folderID f1 e sa hf1,
      getFolderInfo_of_fetch_error s w2 folderID f1 e sb hf2]
  | none =>
    cases f1 with
    | none => simp [getFolderInfo, World.invoke, hf1, hf2]
    | some f =>
      rcases ha1 : s.folderService.GetAncestors sa folderID with ⟨⟨a1, x1⟩, sc⟩
      rcases ha2 : s.folderService.GetAncestors sb folderID with ⟨⟨a2, x2⟩, sd⟩
      have hae := hdet.2 sa sb folderID
      rw [ha1, ha2] at hae
      simp only [Prod.mk.injEq] at hae
      obtain ⟨rfl, rfl⟩ := hae
      rw [getFolderInfo_of_fetch_ok s w1 folderID f sa sc a1 x1 hf1 ha1,
        getFolderInfo_of_fetch_ok s w2 folderID f sb sd a1 x1 hf2 ha2]

/-- With deterministic folder resolution the log holds, for each key, the outcome of
resolving that key in any world. -/
theorem resolutionLog_mem_det (s : Service σ) (hdet : FolderDeterministic s) (w0 : World σ)
    (keys : List Nat) :
    ∀ (w : World σ) (id : Nat) (o : Outcome (Option FolderInfo × Option GoError)),
      (id, o) ∈ resolutionLog s w keys ↔ id ∈ keys ∧ o = (getFolderInfo s w0 id).1 := by
  induction keys with
  | nil => intro w id o; simp [resolutionLog]
  | cons k rest ih =>
    intro w id o
    simp only [resolutionLog, List.mem_cons, Prod.mk.injEq, ih]
    rw [getFolderInfo_det s hdet w w0 k]
    constructor
    · rintro (⟨rfl, rfl⟩ | ⟨hmem, ho⟩)
      · exact ⟨Or.inl rfl, rfl⟩
      · exact ⟨Or.inr hmem, ho⟩
    · rintro ⟨rfl | hmem, ho⟩
      · exact Or.inl ⟨rfl, ho⟩
      · exact Or.inr ⟨hmem, ho⟩

/-- With deterministic folder resolution a returned batch binds exactly the keys whose
resolution succeeds, to the resolved value; and no key's resolution panics. -/
theorem batchLoop_get_det (s : Service σ) (hdet : FolderDeterministic s) (w0 : World σ)
    (keys : List Nat) (w : World σ) (m : List (Nat × Option FolderInfo)) (w2 : World σ)
    (h : batchLoop s w keys [] = (.returned m, w2)) (hnodup : keys.Nodup) :
    (∀ id info, folderMapGet m id = some info ↔
      id ∈ keys ∧ (getFolderInfo s w0 id).1 = .returned (info, none)) ∧
    ∀ id ∈ keys, (getFolderInfo s w0 id).1 ≠ .panicked := by
  constructor
  · intro id info
    rw [batchLoop_get_iff s keys w m w2 h hnodup id info, resolutionLog_mem_det s hdet w0 keys]
    constructor
    · rintro ⟨hmem, ho⟩
      exact ⟨hmem, ho.symm⟩
    · rintro ⟨hmem, ho⟩
      exact ⟨hmem, ho.symm⟩
  · intro id hid
    have hmem : (id, (getFolderInfo s w0 id).1) ∈ resolutionLog s w keys :=
      (resolutionLog_mem_det s hdet w0 keys w id _).mpr ⟨hid, rfl⟩
    exact ((batchLoop_spec s keys w [] m w2 h hnodup).2 id _ hmem).1

/-- With deterministic folder resolution the batch loop returns when no key's resolution
panics. -/
theorem batchLoop_returns_det (s : Service σ) (hdet : FolderDeterministic s) (w0 : World σ)
    (keys : List Nat) (hno : ∀ id ∈ keys, (getFolderInfo s w0 id).1 ≠ .panicked) :
    ∀ (w : World σ) (m : List (Nat × Option FolderInfo)),
      ∃ m1 w2, batchLoop s w keys m = (.returned m1, w2) := by
  induction keys with
  | nil => intro w m; exact ⟨m, w, by simp [batchLoop]⟩
  | cons k rest ih =>
    intro w m
    have hrest := ih fun id hid => hno id (List.mem_cons_of_mem _ hid)
    have hk := hno k (List.mem_cons_self _ _)
    rw [← getFolderInfo_det s hdet w w0 k] at hk
    rcases hg : getFolderInfo s w k with ⟨o, w1⟩
    rw [hg] at hk
    cases o with
    | panicked => exact absurd rfl hk
    | returned r =>
      rcases r with ⟨info, err⟩
      cases err with
      | none => simpa [batchLoop, hg] using hrest w1 (folderMapSet m k info)
      | some e => simpa [batchLoop, hg] using hrest w1 m

/-- A record assembled for a page holds the article at its index, and a `Folder` read from
the folder map under the article's folder id. -/
theorem assembleRecords_getElem (folderMap : List (Nat × Option FolderInfo))
    (records : List Article) (i : Nat) (rec : ArticleWithFolder)
    (h : (assembleRecords folderMap records)[i]? = some rec) :
    records[i]? = some rec.Article ∧
    rec.Folder =
      match rec.Article.FolderID with
      | some id =>
        match folderMapGet folderMap id with
        | some info => info
        | none => none
      | none => none := by
  simp only [assembleRecords, List.getElem?_map, Option.map_eq_some'] at h
  obtain ⟨art, hart, hrec⟩ := h
  subst hrec
  exact ⟨hart, rfl⟩

/-- Folder maps that agree on every key assemble the same records. -/
theorem assembleRecords_congr (m1 m2 : List (Nat × Option FolderInfo))
    (records : List Article) (h : ∀ id, folderMapGet m1 id = folderMapGet m2 id) :
    assembleRecords m1 records = assembleRecords m2 records := by
  simp only [assembleRecords, h]

end Lemmas

/-! ## Theorems -/

section Claims

variable {σ : Type}

/-- C1, evaluated where it fails: in the demo the descendant lookup for folder 50 succeeds
with `[50]` and the multi-folder list the operation delegates to returns the error
`"list failed"` with a nil page; `ListArticlesWithFolder` does not return that error, it
panics on `result.Records`. The same happens for folder 60, where the descendant lookup fails
and the single-folder list returns the error. -/
theorem ListArticlesWithFolder_scoped_list_error :
    delegatedListCall Demo.service Demo.world Demo.query (some 50) = (none, some "list failed") ∧
    (ListArticlesWithFolder Demo.service Demo.inOrder Demo.world Demo.query (some 50)).1 =
      .panicked ∧
    (ListArticlesWithFolder Demo.service Demo.inOrder Demo.world Demo.query (some 50)).1 ≠
      .returned (none, some "list failed") ∧
    delegatedListCall Demo.service Demo.world Demo.query (some 60) = (none, some "list failed") ∧
    (ListArticlesWithFolder Demo.service Demo.inOrder Demo.world Demo.query (some 60)).1 =
      .panicked ∧
    (ListArticlesWithFolder Demo.service Demo.inOrder Demo.world Demo.query (some 60)).1 ≠
      .returned (none, some "list failed") := by
  refine ⟨rfl, rfl, ?_, rfl, rfl, ?_⟩ <;> decide

/-- C2: when `GetDescendantIDs` succeeds with `D` for folder `F`, `ListArticlesWithFolder`
with `folderID = F` calls `ListArticlesByFolderIDs` with exactly `D` and the same query, makes
no `ListArticles` call (its other calls are folder resolutions), and the articles of the
records it returns are exactly the records of that call's page; it does return them, with a
nil error, when that call succeeds and the folder fetch is sound. -/
theorem ListArticlesWithFolder_descendants (s : Service σ) (mo : MapOrder) (w : World σ)
    (q : ListQuery) (F : Nat) (D : List Nat) (r : Option PageResult) (e : Option GoError)
    (st1 st2 : σ)
    (hdesc : s.folderService.GetDescendantIDs w.state F = ((D, none), st1))
    (hlist : s.articleService.ListArticlesByFolderIDs st1 q D = ((r, e), st2)) :
    (∃ calls, (ListArticlesWithFolder s mo w q (some F)).2.trace =
        w.trace ++ [.GetDescendantIDs F, .ListArticlesByFolderIDs q D] ++ calls ∧
      ∀ c ∈ calls, ∃ id, c = .GetFolder id ∨ c = .GetAncestors id) ∧
    (∀ c ∈ (ListArticlesWithFolder s mo w q (some F)).2.trace.drop w.trace.length,
      c.isListArticles = false) ∧
    (∀ page err, (ListArticlesWithFolder s mo w q (some F)).1 = .returned (some page, err) →
      ∃ p, r = some p ∧ page.Records.map (fun rec => rec.Article) = p.Records) ∧
    (∀ p, r = some p → e = none → FolderFetchSound s →
      ∃ page, (ListArticlesWithFolder s mo w q (some F)).1 = .returned (some page, none) ∧
        page.Records.map (fun rec => rec.Article) = p.Records) := by
  have hfetch := fetchArticles_descendants s w q F D r e st1 st2 hdesc hlist
  have htrace : ∃ calls, (ListArticlesWithFolder s mo w q (some F)).2.trace =
        w.trace ++ [.GetDescendantIDs F, .ListArticlesByFolderIDs q D] ++ calls ∧
      ∀ c ∈ calls, ∃ id, c = .GetFolder id ∨ c = .GetAncestors id := by
    cases r with
    | none => exact ⟨[], by simp [ListArticlesWithFolder, hfetch], by simp⟩
    | some p =>
      obtain ⟨calls, hc, hmem⟩ :=
        (ListArticlesWithFolder_after_fetch s mo w q (some F) p _ hfetch).1
      exact ⟨calls, hc, hmem⟩
  refine ⟨htrace, ?_, ?_, ?_⟩
  · obtain ⟨calls, hc, hmem⟩ := htrace
    rw [hc, List.append_assoc, List.drop_left]
    intro c hcmem
    rcases List.mem_append.mp hcmem with h | h
    · simp only [List.mem_cons, List.mem_singleton, List.not_mem_nil, or_false] at h
      rcases h with rfl | rfl <;> rfl
    · obtain ⟨id, rfl | rfl⟩ := hmem c h <;> rfl
  · intro page err hret
    obtain ⟨p, w1, folderMap, w2, hf, _, hpage, _⟩ :=
      ListArticlesWithFolder_returned s mo w q (some F) page err hret
    rw [hfetch] at hf
    simp only [Prod.mk.injEq] at hf
    exact ⟨p, hf.1, by rw [hpage]; exact assembleRecords_article folderMap p.Records⟩
  · intro p hp _ hsound
    subst hp
    obtain ⟨folderMap, hm⟩ :=
      (ListArticlesWithFolder_after_fetch s mo w q (some F) p _ hfetch).2 hsound
    exact ⟨envelope folderMap p, hm, assembleRecords_article folderMap p.Records⟩

/-- Witness for C2: folder 10 of the demo has the descendants 10 and 11. -/
theorem ListArticlesWithFolder_descendants_witness :
    (∃ calls,
      (ListArticlesWithFolder Demo.service Demo.inOrder Demo.world Demo.query (some 10)).2.trace =
        Demo.world.trace ++ [.GetDescendantIDs 10, .ListArticlesByFolderIDs Demo.query [10, 11]]
          ++ calls ∧
      ∀ c ∈ calls, ∃ id, c = .GetFolder id ∨ c = .GetAncestors id) ∧
    (∀ c ∈ (ListArticlesWithFolder Demo.service Demo.inOrder Demo.world Demo.query
        (some 10)).2.trace.drop Demo.world.trace.length,
      c.isListArticles = false) ∧
    (∀ page err,
      (ListArticlesWithFolder Demo.service Demo.inOrder Demo.world Demo.query (some 10)).1 =
        .returned (some page, err) →
      ∃ p, some (Demo.page [Demo.article 1, Demo.article 5, Demo.article 6]) = some p ∧
        page.Records.map (fun rec => rec.Article) = p.Records) ∧
    (∀ p, some (Demo.page [Demo.article 1, Demo.article 5, Demo.article 6]) = some p →
      (none : Option GoError) = none → FolderFetchSound Demo.service →
      ∃ page,
        (ListArticlesWithFolder Demo.service Demo.inOrder Demo.world Demo.query (some 10)).1 =
          .returned (some page, none) ∧
        page.Records.map (fun rec => rec.Article) = p.Records) :=
  ListArticlesWithFolder_descendants Demo.service Demo.inOrder Demo.world Demo.query 10 [10, 11]
    (some (Demo.page [Demo.article 1, Demo.article 5, Demo.article 6])) none 0 0 rfl rfl

/-- C3: when `GetDescendantIDs` fails for folder `F`, `ListArticlesWithFolder` with
`folderID = F` does not return that error (it returns no error at all): it calls the
single-folder `ListArticles` with `folderID = F` and the same query, and when that call
succeeds it returns, with a nil error, a page whose articles are exactly that call's records
(the folder fetch being sound). -/
theorem ListArticlesWithFolder_fallback (s : Service σ) (mo : MapOrder) (w : World σ)
    (q : ListQuery) (F : Nat) (D : List Nat) (e0 : GoError) (r : Option PageResult)
    (e : Option GoError) (st1 st2 : σ)
    (hdesc : s.folderService.GetDescendantIDs w.state F = ((D, some e0), st1))
    (hlist : s.articleService.ListArticles st1 q (some F) = ((r, e), st2)) :
    (∀ x err, (ListArticlesWithFolder s mo w q (some F)).1 = .returned (x, err) → err = none) ∧
    (∃ calls, (ListArticlesWithFolder s mo w q (some F)).2.trace =
        w.trace ++ [.GetDescendantIDs F, .ListArticles q (some F)] ++ calls ∧
      ∀ c ∈ calls, ∃ id, c = .GetFolder id ∨ c = .GetAncestors id) ∧
    (∀ p, r = some p → e = none → FolderFetchSound s →
      ∃ page, (ListArticlesWithFolder s mo w q (some F)).1 = .returned (some page, none) ∧
        page.Records.map (fun rec => rec.Article) = p.Records) := by
  have hfetch := fetchArticles_fallback s w q F D e0 r e st1 st2 hdesc hlist
  refine ⟨fun x err h => ListArticlesWithFolder_scoped_no_error s mo w q F x err h, ?_, ?_⟩
  · cases r with
    | none => exact ⟨[], by simp [ListArticlesWithFolder, hfetch], by simp⟩
    | some p =>
      obtain ⟨calls, hc, hmem⟩ :=
        (ListArticlesWithFolder_after_fetch s mo w q (some F) p _ hfetch).1
      exact ⟨calls, hc, hmem⟩
  · intro p hp _ hsound
    subst hp
    obtain ⟨folderMap, hm⟩ :=
      (ListArticlesWithFolder_after_fetch s mo w q (some F) p _ hfetch).2 hsound
    exact ⟨envelope folderMap p, hm, assembleRecords_article folderMap p.Records⟩

/-- Witness for C3: the descendant lookup of the demo fails for folder 20. -/
theorem ListArticlesWithFolder_fallback_witness :
    (∀ x err,
      (ListArticlesWithFolder Demo.service Demo.inOrder Demo.world Demo.query (some 20)).1 =
        .returned (x, err) → err = none) ∧
    (∃ calls,
      (ListArticlesWithFolder Demo.service Demo.inOrder Demo.world Demo.query (some 20)).2.trace =
        Demo.world.trace ++ [.GetDescendantIDs 20, .ListArticles Demo.query (some 20)] ++ calls ∧
      ∀ c ∈ calls, ∃ id, c = .GetFolder id ∨ c = .GetAncestors id) ∧
    (∀ p, some (Demo.page [Demo.article 3]) = some p → (none : Option GoError) = none →
      FolderFetchSound Demo.service →
      ∃ page,
        (ListArticlesWithFolder Demo.service Demo.inOrder Demo.world Demo.query (some 20)).1 =
          .returned (some page, none) ∧
        page.Records.map (fun rec => rec.Article) = p.Records) :=
  ListArticlesWithFolder_fallback Demo.service Demo.inOrder Demo.world Demo.query 20 []
    "descendants failed" (some (Demo.page [Demo.article 3])) none 0 0 rfl rfl

/-- C4: for a successful `ListArticlesWithFolder` call, with `log` the folder-info
resolutions of the batch (one per distinct non-nil folder id of the page), the record at every
index `i` carries the `i`-th article, and its `Folder` is `info` exactly when that article has
a non-nil folder id whose resolution succeeded with `info`; in particular a failed resolution
of one id leaves the records of every other, successfully resolved, id enriched. -/
theorem ListArticlesWithFolder_enrichment (s : Service σ) (mo : MapOrder) (w : World σ)
    (q : ListQuery) (folderID : Option Nat) (page : PageResultWithFolder)
    (hok : (ListArticlesWithFolder s mo w q folderID).1 = .returned (some page, none)) :
    ∃ p w1 log,
      fetchArticles s w q folderID = (some p, none, w1) ∧
      log = resolutionLog s w1 (mo.order (collectFolderIDs p.Records)) ∧
      (log.map Prod.fst).Nodup ∧
      (∀ id, id ∈ log.map Prod.fst ↔ ∃ art ∈ p.Records, art.FolderID = some id) ∧
      page.Records.length = p.Records.length ∧
      (∀ (i : Nat) (rec : ArticleWithFolder), page.Records[i]? = some rec →
        p.Records[i]? = some rec.Article ∧
        ∀ info, rec.Folder = some info ↔
          ∃ id, rec.Article.FolderID = some id ∧ (id, .returned (some info, none)) ∈ log) ∧
      (∀ id1 x e, (id1, Outcome.returned (x, some e)) ∈ log →
        ∀ (i : Nat) (rec : ArticleWithFolder) id2 info, page.Records[i]? = some rec → rec.Article.FolderID = some id2 →
          (id2, .returned (some info, none)) ∈ log → rec.Folder = some info) := by
  obtain ⟨p, w1, folderMap, w2, hfetch, hbatch, hpage, _⟩ :=
    ListArticlesWithFolder_returned s mo w q folderID page none hok
  have hnodup : (mo.order (collectFolderIDs p.Records)).Nodup :=
    (mo.perm _).nodup_iff.mpr (collectFolderIDs_nodup p.Records)
  have hget := batchLoop_get_iff s (mo.order (collectFolderIDs p.Records)) w1 folderMap w2
    hbatch hnodup
  have hrec : ∀ (i : Nat) (rec : ArticleWithFolder), page.Records[i]? = some rec →
      p.Records[i]? = some rec.Article ∧
      ∀ info, rec.Folder = some info ↔
        ∃ id, rec.Article.FolderID = some id ∧
          (id, .returned (some info, none)) ∈
            resolutionLog s w1 (mo.order (collectFolderIDs p.Records)) := by
    intro i rec hi
    rw [hpage] at hi
    simp only [envelope, assembleRecords, List.getElem?_map, Option.map_eq_some'] at hi
    obtain ⟨art, hart, hrec⟩ := hi
    subst hrec
    refine ⟨hart, fun info => ?_⟩
    simp only
    cases hfid : art.FolderID with
    | none => simp
    | some id =>
      simp only [Option.some.injEq, exists_eq_left']
      rw [← hget id (some info)]
      cases hg : folderMapGet folderMap id with
      | none => simp
      | some v => simp
  refine ⟨p, w1, _, hfetch, rfl, ?_, ?_, ?_, hrec, ?_⟩
  · rw [resolutionLog_keys]
    exact hnodup
  · intro id
    rw [resolutionLog_keys, (mo.perm _).mem_iff, collectFolderIDs_mem]
  · rw [hpage]
    simp [envelope, assembleRecords]
  · intro _ _ _ _ i rec id2 info hi hfid hmem
    exact ((hrec i rec hi).2 info).mpr ⟨id2, hfid, hmem⟩

/-- Witness for C4: the unscoped listing of the demo, whose page refers to folders 10
(resolved), 20 (resolution fails) and 30 (resolved). -/
theorem ListArticlesWithFolder_enrichment_witness :
    ∃ p w1 log,
      fetchArticles Demo.service Demo.world Demo.query none = (some p, none, w1) ∧
      log = resolutionLog Demo.service w1 (Demo.reversed.order (collectFolderIDs p.Records)) ∧
      (log.map Prod.fst).Nodup ∧
      (∀ id, id ∈ log.map Prod.fst ↔ ∃ art ∈ p.Records, art.FolderID = some id) ∧
      Demo.listing.Records.length = p.Records.length ∧
      (∀ (i : Nat) (rec : ArticleWithFolder), Demo.listing.Records[i]? = some rec →
        p.Records[i]? = some rec.Article ∧
        ∀ info, rec.Folder = some info ↔
          ∃ id, rec.Article.FolderID = some id ∧ (id, .returned (some info, none)) ∈ log) ∧
      (∀ id1 x e, (id1, Outcome.returned (x, some e)) ∈ log →
        ∀ (i : Nat) (rec : ArticleWithFolder) id2 info, Demo.listing.Records[i]? = some rec →
          rec.Article.FolderID = some id2 →
          (id2, .returned (some info, none)) ∈ log → rec.Folder = some info) :=
  ListArticlesWithFolder_enrichment Demo.service Demo.reversed Demo.world Demo.query none
    Demo.listing rfl

/-- C5: for a successful `ListArticlesWithFolder` call, `Total`, `Size`, `Current`, `Pages`,
`HasPrevious`, `HasNext`, `IsFirst` and `IsLast` of the returned page equal those of the page
the delegated Article Provider list call returned, `Records` has the length of that page's
records, and the article of the `i`-th record is that page's `i`-th record, for every `i`. -/
theorem ListArticlesWithFolder_envelope (s : Service σ) (mo : MapOrder) (w : World σ)
    (q : ListQuery) (folderID : Option Nat) (page : PageResultWithFolder)
    (hok : (ListArticlesWithFolder s mo w q folderID).1 = .returned (some page, none)) :
    ∃ p, (delegatedListCall s w q folderID).1 = some p ∧
      page.Total = p.Total ∧ page.Size = p.Size ∧ page.Current = p.Current ∧
      page.Pages = p.Pages ∧ page.HasPrevious = p.HasPrevious ∧ page.HasNext = p.HasNext ∧
      page.IsFirst = p.IsFirst ∧ page.IsLast = p.IsLast ∧
      page.Records.length = p.Records.length ∧
      ∀ i : Nat, (page.Records[i]?).map (fun rec : ArticleWithFolder => rec.Article) = p.Records[i]? := by
  obtain ⟨p, w1, folderMap, w2, hfetch, _, hpage, _⟩ :=
    ListArticlesWithFolder_returned s mo w q folderID page none hok
  have hres := fetchArticles_result s w q folderID
  rw [hfetch] at hres
  refine ⟨p, hres.symm, ?_⟩
  subst hpage
  refine ⟨rfl, rfl, rfl, rfl, rfl, rfl, rfl, rfl, ?_, ?_⟩
  · simp [envelope, assembleRecords]
  · intro i
    simp only [envelope, ← List.getElem?_map, assembleRecords_article]

/-- Witness for C5: the listing of the demo scoped to folder 10. -/
theorem ListArticlesWithFolder_envelope_witness :
    ∃ p, (delegatedListCall Demo.service Demo.world Demo.query (some 10)).1 = some p ∧
      Demo.listing10.Total = p.Total ∧ Demo.listing10.Size = p.Size ∧
      Demo.listing10.Current = p.Current ∧ Demo.listing10.Pages = p.Pages ∧
      Demo.listing10.HasPrevious = p.HasPrevious ∧ Demo.listing10.HasNext = p.HasNext ∧
      Demo.listing10.IsFirst = p.IsFirst ∧ Demo.listing10.IsLast = p.IsLast ∧
      Demo.listing10.Records.length = p.Records.length ∧
      ∀ i : Nat, (Demo.listing10.Records[i]?).map (fun rec : ArticleWithFolder => rec.Article) = p.Records[i]? :=
  ListArticlesWithFolder_envelope Demo.service Demo.inOrder Demo.world Demo.query (some 10)
    Demo.listing10 rfl

/-- C6: when the article fetch succeeds with an article that has a folder reference and the
folder fetch for that reference returns an error, `GetArticleWithFolder` returns a nil error
and a result holding that same article with `Folder = nil`. -/
theorem GetArticleWithFolder_folder_fetch_error (s : Service σ) (w : World σ) (articleID : Nat)
    (art : Article) (fid : Nat) (f : Option Folder) (e : GoError) (st1 st2 : σ)
    (hart : s.articleService.GetArticle w.state articleID = ((some art, none), st1))
    (hfid : art.FolderID = some fid)
    (hfolder : s.folderService.GetFolder st1 fid = ((f, some e), st2)) :
    (GetArticleWithFolder s w articleID).1 =
      .returned (some { Article := art, Folder := none }, none) := by
  have hinfo := getFolderInfo_of_fetch_error s
    { state := st1, trace := w.trace ++ [.GetArticle articleID] } fid f e st2 hfolder
  simp [GetArticleWithFolder, World.invoke, hart, hfid, hinfo]

/-- Witness for C6: article 3 of the demo sits in folder 20, which does not exist. -/
theorem GetArticleWithFolder_folder_fetch_error_witness :
    (GetArticleWithFolder Demo.service Demo.world 3).1 =
      .returned (some { Article := Demo.article 3, Folder := none }, none) :=
  GetArticleWithFolder_folder_fetch_error Demo.service Demo.world 3 (Demo.article 3) 20 none
    ErrFolderNotFound 0 0 rfl rfl rfl

/-- C7, as stated, fails: article 4 of the demo sits in folder 30, whose fetch succeeds and
whose ancestor lookup returns an error; `GetArticleWithFolder` returns the article with a
nil error and with `Folder` present. -/
theorem GetArticleWithFolder_ancestor_error_counterexample :
    Demo.articles.GetArticle Demo.world.state 4 = ((some (Demo.article 4), none), 0) ∧
    (Demo.article 4).FolderID = some 30 ∧
    Demo.folders.GetFolder 0 30 =
      ((some { ID := 30, Name := "misc", Path := "/misc" }, none), 0) ∧
    Demo.folders.GetAncestors 0 30 = (([], some "ancestors failed"), 0) ∧
    (GetArticleWithFolder Demo.service Demo.world 4).1 =
      .returned
        (some
          { Article := Demo.article 4
            Folder := some { ID := 30, Name := "misc", Path := "/misc", Breadcrumb := [] } },
          none) ∧
    (GetArticleWithFolder Demo.service Demo.world 4).1 ≠
      .returned (some { Article := Demo.article 4, Folder := none }, none) := by
  refine ⟨rfl, rfl, rfl, rfl, rfl, ?_⟩
  decide

/-- C7, amended: when the article has a folder reference, the folder fetch succeeds with `f`
and the ancestor lookup returns an error, `GetArticleWithFolder` returns the article with a
nil error and with `Folder` present: the id, name and path of `f`, and a breadcrumb built
from the sequence `GetAncestors` returned alongside its error. -/
theorem GetArticleWithFolder_ancestor_error (s : Service σ) (w : World σ) (articleID : Nat)
    (art : Article) (fid : Nat) (f : Folder) (ancestors : List Folder) (e : GoError)
    (st1 st2 st3 : σ)
    (hart : s.articleService.GetArticle w.state articleID = ((some art, none), st1))
    (hfid : art.FolderID = some fid)
    (hfolder : s.folderService.GetFolder st1 fid = ((some f, none), st2))
    (hanc : s.folderService.GetAncestors st2 fid = ((ancestors, some e), st3)) :
    (GetArticleWithFolder s w articleID).1 =
      .returned
        (some
          { Article := art
            Folder :=
              some
                { ID := f.ID, Name := f.Name, Path := f.Path
                  Breadcrumb := ancestors.map (fun a => { ID := a.ID, Name := a.Name }) } },
          none) := by
  have hinfo := getFolderInfo_of_fetch_ok s
    { state := st1, trace := w.trace ++ [.GetArticle articleID] } fid f st2 st3 ancestors
    (some e) hfolder hanc
  simp [GetArticleWithFolder, World.invoke, hart, hfid, hinfo]

/-- Witness for the amended C7: article 4 of the demo. -/
theorem GetArticleWithFolder_ancestor_error_witness :
    (GetArticleWithFolder Demo.service Demo.world 4).1 =
      .returned
        (some
          { Article := Demo.article 4
            Folder := some { ID := 30, Name := "misc", Path := "/misc", Breadcrumb := [] } },
          none) :=
  GetArticleWithFolder_ancestor_error Demo.service Demo.world 4 (Demo.article 4) 30
    { ID := 30, Name := "misc", Path := "/misc" } [] "ancestors failed" 0 0 0 rfl rfl rfl rfl

/-- C8, as stated, fails: `GetArticleWithFolder` returns article 4 of the demo with `Folder`
present (its folder 30 is fetched), and the breadcrumb of that `Folder` is empty. -/
theorem GetArticleWithFolder_breadcrumb_counterexample :
    ∃ r info, (GetArticleWithFolder Demo.service Demo.world 4).1 = .returned (some r, none) ∧
      r.Article = Demo.article 4 ∧ r.Folder = some info ∧ info.Breadcrumb = [] :=
  ⟨{ Article := Demo.article 4
     Folder := some { ID := 30, Name := "misc", Path := "/misc", Breadcrumb := [] } },
    { ID := 30, Name := "misc", Path := "/misc", Breadcrumb := [] }, rfl, rfl, rfl, rfl⟩

/-- C8, amended: when the article's folder fetch succeeds with `f` and `GetAncestors` returns
a non-empty sequence whose last element has the id of `f` (the Folder Provider's inclusive
ancestor contract), `GetArticleWithFolder` returns the article with `Folder` present, and
`Folder.Breadcrumb` is a non-empty sequence whose last element's id equals `Folder.ID`, which
is the id of `f`. -/
theorem GetArticleWithFolder_breadcrumb_last (s : Service σ) (w : World σ) (articleID : Nat)
    (art : Article) (fid : Nat) (f : Folder) (ancestors : List Folder) (aerr : Option GoError)
    (st1 st2 st3 : σ)
    (hart : s.articleService.GetArticle w.state articleID = ((some art, none), st1))
    (hfid : art.FolderID = some fid)
    (hfolder : s.folderService.GetFolder st1 fid = ((some f, none), st2))
    (hanc : s.folderService.GetAncestors st2 fid = ((ancestors, aerr), st3))
    (hlast : (ancestors.getLast?).map (fun a => a.ID) = some f.ID) :
    ∃ r info, (GetArticleWithFolder s w articleID).1 = .returned (some r, none) ∧
      r.Article = art ∧ r.Folder = some info ∧ info.ID = f.ID ∧
      info.Breadcrumb ≠ [] ∧
      (info.Breadcrumb.getLast?).map (fun b => b.ID) = some info.ID := by
  have hinfo := getFolderInfo_of_fetch_ok s
    { state := st1, trace := w.trace ++ [.GetArticle articleID] } fid f st2 st3 ancestors
    aerr hfolder hanc
  refine ⟨{ Article := art
            Folder :=
              some
                { ID := f.ID, Name := f.Name, Path := f.Path
                  Breadcrumb := ancestors.map (fun a => { ID := a.ID, Name := a.Name }) } },
    { ID := f.ID, Name := f.Name, Path := f.Path
      Breadcrumb := ancestors.map (fun a => { ID := a.ID, Name := a.Name }) },
    ?_, rfl, rfl, rfl, ?_, ?_⟩
  · simp [GetArticleWithFolder, World.invoke, hart, hfid, hinfo]
  · intro hnil
    simp only [List.map_eq_nil_iff] at hnil
    simp [hnil] at hlast
  · simp only [List.getLast?_map, Option.map_map]
    simpa [Function.comp_def] using hlast

/-- Witness for the amended C8: article 1 of the demo sits in folder 10, under root 1. -/
theorem GetArticleWithFolder_breadcrumb_last_witness :
    ∃ r info, (GetArticleWithFolder Demo.service Demo.world 1).1 = .returned (some r, none) ∧
      r.Article = Demo.article 1 ∧ r.Folder = some info ∧ info.ID = 10 ∧
      info.Breadcrumb ≠ [] ∧
      (info.Breadcrumb.getLast?).map (fun b => b.ID) = some info.ID :=
  GetArticleWithFolder_breadcrumb_last Demo.service Demo.world 1 (Demo.article 1) 10
    { ID := 10, Name := "docs", Path := "/1/10" }
    [{ ID := 1, Name := "root", Path := "/1" }, { ID := 10, Name := "docs", Path := "/1/10" }]
    none 0 0 0 rfl rfl rfl rfl rfl

/-- C9: when `GetFolder` fails with error `e` for the non-nil folder id `X`,
`MoveArticleToFolder(articleID, X)` returns `e` unchanged, and the only call it makes is that
`GetFolder`: the Article Provider's `MoveToFolder` is not invoked. -/
theorem MoveArticleToFolder_invalid_folder (s : Service σ) (w : World σ) (articleID X : Nat)
    (f : Option Folder) (e : GoError) (st1 : σ)
    (hfolder : s.folderService.GetFolder w.state X = ((f, some e), st1)) :
    (MoveArticleToFolder s w articleID (some X)).1 = some e ∧
    (MoveArticleToFolder s w articleID (some X)).2.trace = w.trace ++ [.GetFolder X] ∧
    (MoveArticleToFolder s w articleID (some X)).2.state = st1 ∧
    ∀ c ∈ (MoveArticleToFolder s w articleID (some X)).2.trace.drop w.trace.length,
      c.isMove = false := by
  simp [MoveArticleToFolder, World.invoke, hfolder, Call.isMove]

/-- Witness for C9: folder 20 of the demo does not exist. -/
theorem MoveArticleToFolder_invalid_folder_witness :
    (MoveArticleToFolder Demo.service Demo.world 1 (some 20)).1 = some ErrFolderNotFound ∧
    (MoveArticleToFolder Demo.service Demo.world 1 (some 20)).2.trace =
      Demo.world.trace ++ [.GetFolder 20] ∧
    (MoveArticleToFolder Demo.service Demo.world 1 (some 20)).2.state = 0 ∧
    ∀ c ∈ (MoveArticleToFolder Demo.service Demo.world 1 (some 20)).2.trace.drop
        Demo.world.trace.length,
      c.isMove = false :=
  MoveArticleToFolder_invalid_folder Demo.service Demo.world 1 20 none ErrFolderNotFound 0 rfl

/-- C10: when `CountByFolder` succeeds with count `n` for folder `F`, `CanDeleteFolder(F)`
returns `(true, 0, nil)` if and only if `n = 0`, and returns `(false, n, nil)` for every
`n > 0`. -/
theorem CanDeleteFolder_count (s : Service σ) (w : World σ) (folderID : Nat) (n : Int)
    (st1 : σ)
    (hcount : s.articleService.CountByFolder w.state folderID = ((n, none), st1)) :
    ((CanDeleteFolder s w folderID).1 = (true, 0, none) ↔ n = 0) ∧
    (0 < n → (CanDeleteFolder s w folderID).1 = (false, n, none)) := by
  constructor
  · simp only [CanDeleteFolder, World.invoke, hcount]
    constructor
    · intro h
      simpa using (congrArg (fun r => r.2.1) h)
    · intro h
      simp [h]
  · intro hpos
    have hne : n ≠ 0 := ne_of_gt hpos
    simp [CanDeleteFolder, World.invoke, hcount, hne]

/-- Witness for C10: folder 10 of the demo holds two articles. -/
theorem CanDeleteFolder_count_witness :
    ((CanDeleteFolder Demo.service Demo.world 10).1 = (true, 0, none) ↔ (2 : Int) = 0) ∧
    ((0 : Int) < 2 → (CanDeleteFolder Demo.service Demo.world 10).1 = (false, 2, none)) :=
  CanDeleteFolder_count Demo.service Demo.world 10 2 0 rfl

/-- C12: when `GetArticle` fails with error `e`, `GetArticleWithFolder` returns `e` unchanged
with a nil result, and the only call it makes is that `GetArticle`: no call to the Folder
Provider. -/
theorem GetArticleWithFolder_article_error (s : Service σ) (w : World σ) (articleID : Nat)
    (a : Option Article) (e : GoError) (st1 : σ)
    (hart : s.articleService.GetArticle w.state articleID = ((a, some e), st1)) :
    (GetArticleWithFolder s w articleID).1 = .returned (none, some e) ∧
    (GetArticleWithFolder s w articleID).2.trace = w.trace ++ [.GetArticle articleID] ∧
    (GetArticleWithFolder s w articleID).2.state = st1 ∧
    ∀ c ∈ (GetArticleWithFolder s w articleID).2.trace.drop w.trace.length,
      c.isFolderCall = false := by
  simp [GetArticleWithFolder, World.invoke, hart, Call.isFolderCall]

/-- Witness for C12: article 7 of the demo does not exist. -/
theorem GetArticleWithFolder_article_error_witness :
    (GetArticleWithFolder Demo.service Demo.world 7).1 =
      .returned (none, some "article not found") ∧
    (GetArticleWithFolder Demo.service Demo.world 7).2.trace =
      Demo.world.trace ++ [.GetArticle 7] ∧
    (GetArticleWithFolder Demo.service Demo.world 7).2.state = 0 ∧
    ∀ c ∈ (GetArticleWithFolder Demo.service Demo.world 7).2.trace.drop Demo.world.trace.length,
      c.isFolderCall = false :=
  GetArticleWithFolder_article_error Demo.service Demo.world 7 none "article not found" 0 rfl

/-- C13: `MoveArticleToFolder(articleID, nil)` makes exactly one call, the Article Provider's
`MoveToFolder(articleID, nil)`, and returns exactly what that call returns (nil or its
error); it makes no call to the Folder Provider. -/
theorem MoveArticleToFolder_unfile (s : Service σ) (w : World σ) (articleID : Nat) :
    (MoveArticleToFolder s w articleID none).1 =
      (s.articleService.MoveToFolder w.state articleID none).1 ∧
    (MoveArticleToFolder s w articleID none).2.state =
      (s.articleService.MoveToFolder w.state articleID none).2 ∧
    (MoveArticleToFolder s w articleID none).2.trace =
      w.trace ++ [.MoveToFolder articleID none] ∧
    ((MoveArticleToFolder s w articleID none).2.trace.drop w.trace.length).length = 1 ∧
    ∀ c ∈ (MoveArticleToFolder s w articleID none).2.trace.drop w.trace.length,
      c.isFolderCall = false := by
  simp [MoveArticleToFolder, World.invoke, Call.isFolderCall]

/-- C14: when the article fetch succeeds with `art`, the result of `GetArticleWithFolder`
holds `art` with a nil error, and its `Folder` is present only if `art` has a non-nil folder
reference whose folder fetch succeeds; for a nil folder reference the result has
`Folder = nil`. The call does return when the folder fetch is sound. -/
theorem GetArticleWithFolder_folder_present (s : Service σ) (w : World σ) (articleID : Nat)
    (art : Article) (st1 : σ)
    (hart : s.articleService.GetArticle w.state articleID = ((some art, none), st1)) :
    (art.FolderID = none →
      (GetArticleWithFolder s w articleID).1 =
        .returned (some { Article := art, Folder := none }, none)) ∧
    (∀ r err, (GetArticleWithFolder s w articleID).1 = .returned (r, err) →
      err = none ∧ ∃ res, r = some res ∧ res.Article = art ∧
        ∀ info, res.Folder = some info →
          ∃ fid f st2, art.FolderID = some fid ∧
            s.folderService.GetFolder st1 fid = ((some f, none), st2)) ∧
    (FolderFetchSound s →
      ∃ res, (GetArticleWithFolder s w articleID).1 = .returned (some res, none)) := by
  cases hfid : art.FolderID with
  | none =>
    have hout : (GetArticleWithFolder s w articleID).1 =
        .returned (some { Article := art, Folder := none }, none) := by
      simp [GetArticleWithFolder, World.invoke, hart, hfid]
    refine ⟨fun _ => hout, ?_, fun _ => ⟨_, hout⟩⟩
    intro r err h
    rw [hout] at h
    simp only [Outcome.returned.injEq, Prod.mk.injEq] at h
    refine ⟨h.2.symm, _, h.1.symm, rfl, ?_⟩
    intro info hinfo
    simp at hinfo
  | some fid =>
    refine ⟨fun h => by simp at h, ?_, ?_⟩
    · intro r err h
      rcases hf : s.folderService.GetFolder st1 fid with ⟨⟨f, e⟩, st2⟩
      cases e with
      | some e =>
        have hinfo := getFolderInfo_of_fetch_error s
          { state := st1, trace := w.trace ++ [.GetArticle articleID] } fid f e st2 hf
        simp only [GetArticleWithFolder, World.invoke, hart, hfid, hinfo,
          Outcome.returned.injEq, Prod.mk.injEq] at h
        refine ⟨h.2.symm, _, h.1.symm, rfl, ?_⟩
        intro info hi
        simp at hi
      | none =>
        cases f with
        | none =>
          simp [GetArticleWithFolder, World.invoke, hart, hfid, getFolderInfo, hf] at h
        | some f =>
          rcases ha : s.folderService.GetAncestors st2 fid with ⟨⟨ancestors, aerr⟩, st3⟩
          have hinfo := getFolderInfo_of_fetch_ok s
            { state := st1, trace := w.trace ++ [.GetArticle articleID] } fid f st2 st3
            ancestors aerr hf ha
          simp only [GetArticleWithFolder, World.invoke, hart, hfid, hinfo,
            Outcome.returned.injEq, Prod.mk.injEq] at h
          exact ⟨h.2.symm, _, h.1.symm, rfl, fun _ _ => ⟨fid, f, st2, rfl, hf⟩⟩
    · intro hsound
      have hnp := getFolderInfo_returns s hsound
        { state := st1, trace := w.trace ++ [.GetArticle articleID] } fid
      rcases hg : getFolderInfo s { state := st1, trace := w.trace ++ [.GetArticle articleID] }
        fid with ⟨o, w2⟩
      rw [hg] at hnp
      cases o with
      | panicked => exact absurd rfl hnp
      | returned v =>
        rcases v with ⟨info, err⟩
        cases err <;> simp [GetArticleWithFolder, World.invoke, hart, hfid, hg]

/-- Witness for C14: article 2 of the demo is unfiled. -/
theorem GetArticleWithFolder_folder_present_witness :
    ((Demo.article 2).FolderID = none →
      (GetArticleWithFolder Demo.service Demo.world 2).1 =
        .returned (some { Article := Demo.article 2, Folder := none }, none)) ∧
    (∀ r err, (GetArticleWithFolder Demo.service Demo.world 2).1 = .returned (r, err) →
      err = none ∧ ∃ res, r = some res ∧ res.Article = Demo.article 2 ∧
        ∀ info, res.Folder = some info →
          ∃ fid f st2, (Demo.article 2).FolderID = some fid ∧
            Demo.service.folderService.GetFolder 0 fid = ((some f, none), st2)) ∧
    (FolderFetchSound Demo.service →
      ∃ res, (GetArticleWithFolder Demo.service Demo.world 2).1 = .returned (some res, none)) :=
  GetArticleWithFolder_folder_present Demo.service Demo.world 2 (Demo.article 2) 0 rfl

/-- C15, as stated, fails: for folder 40 of the second demo service the folder fetch succeeds
and `GetAncestors` returns its error together with the part of the chain it had read;
`getFolderInfo` succeeds, and the breadcrumb it yields is that part, not empty. -/
theorem getFolderInfo_ancestor_error_counterexample :
    Demo.partialFolders.GetFolder Demo.world.state 40 =
      ((some { ID := 40, Name := "misc", Path := "/misc" }, none), 0) ∧
    Demo.partialFolders.GetAncestors 0 40 =
      (([{ ID := 1, Name := "root", Path := "/1" }], some "ancestors failed"), 0) ∧
    (getFolderInfo Demo.partialService Demo.world 40).1 =
      .returned
        (some { ID := 40, Name := "misc", Path := "/misc",
                Breadcrumb := [{ ID := 1, Name := "root" }] }, none) ∧
    (getFolderInfo Demo.partialService Demo.world 40).1 ≠
      .returned (some { ID := 40, Name := "misc", Path := "/misc", Breadcrumb := [] }, none) := by
  refine ⟨rfl, rfl, rfl, ?_⟩
  decide

/-- C15, amended: when the folder fetch succeeds with `f` and the ancestor retrieval fails,
`getFolderInfo` still succeeds (nil error) and yields a `FolderInfo` with the id, name and
path of `f` and the breadcrumb of the sequence `GetAncestors` returned alongside its error:
an empty breadcrumb when that sequence is empty. -/
theorem getFolderInfo_ancestor_error (s : Service σ) (w : World σ) (folderID : Nat)
    (f : Folder) (ancestors : List Folder) (e : GoError) (st1 st2 : σ)
    (hfolder : s.folderService.GetFolder w.state folderID = ((some f, none), st1))
    (hanc : s.folderService.GetAncestors st1 folderID = ((ancestors, some e), st2)) :
    (getFolderInfo s w folderID).1 =
      .returned
        (some
          { ID := f.ID, Name := f.Name, Path := f.Path
            Breadcrumb := ancestors.map (fun a => { ID := a.ID, Name := a.Name }) },
          none) ∧
    (ancestors = [] →
      (getFolderInfo s w folderID).1 =
        .returned (some { ID := f.ID, Name := f.Name, Path := f.Path, Breadcrumb := [] },
          none)) := by
  have h := getFolderInfo_of_fetch_ok s w folderID f st1 st2 ancestors (some e) hfolder hanc
  refine ⟨by rw [h], ?_⟩
  intro hnil
  subst hnil
  rw [h]
  rfl

/-- Witness for the amended C15: the ancestor lookup of the demo fails for folder 30 and
returns no sequence. -/
theorem getFolderInfo_ancestor_error_witness :
    (getFolderInfo Demo.service Demo.world 30).1 =
      .returned
        (some
          { ID := 30, Name := "misc", Path := "/misc"
            Breadcrumb := ([] : List Folder).map (fun a => { ID := a.ID, Name := a.Name }) },
          none) ∧
    (([] : List Folder) = [] →
      (getFolderInfo Demo.service Demo.world 30).1 =
        .returned (some { ID := 30, Name := "misc", Path := "/misc", Breadcrumb := [] },
          none)) :=
  getFolderInfo_ancestor_error Demo.service Demo.world 30
    { ID := 30, Name := "misc", Path := "/misc" } [] "ancestors failed" 0 0 rfl rfl

/-- C16: when the folder fetch succeeds and the ancestor lookup returns the sequence
`[a1, ..., an]`, `getFolderInfo` succeeds and the breadcrumb of its `FolderInfo` is exactly
`[{a1.ID, a1.Name}, ..., {an.ID, an.Name}]`: the same length, and at every index the id and
name of the ancestor at that index. -/
theorem getFolderInfo_breadcrumb (s : Service σ) (w : World σ) (folderID : Nat)
    (f : Folder) (ancestors : List Folder) (aerr : Option GoError) (st1 st2 : σ)
    (hfolder : s.folderService.GetFolder w.state folderID = ((some f, none), st1))
    (hanc : s.folderService.GetAncestors st1 folderID = ((ancestors, aerr), st2)) :
    ∃ info, (getFolderInfo s w folderID).1 = .returned (some info, none) ∧
      info.Breadcrumb = ancestors.map (fun a => { ID := a.ID, Name := a.Name }) ∧
      info.Breadcrumb.length = ancestors.length ∧
      ∀ i : Nat, info.Breadcrumb[i]? =
        (ancestors[i]?).map (fun a => ({ ID := a.ID, Name := a.Name } : BreadcrumbItem)) := by
  have h := getFolderInfo_of_fetch_ok s w folderID f st1 st2 ancestors aerr hfolder hanc
  refine ⟨_, by rw [h], rfl, by simp, fun i => by simp⟩

/-- Witness for C16: folder 11 of the demo lies under folder 10, under root 1. -/
theorem getFolderInfo_breadcrumb_witness :
    ∃ info, (getFolderInfo Demo.service Demo.world 11).1 = .returned (some info, none) ∧
      info.Breadcrumb =
        [({ ID := 1, Name := "root", Path := "/1" } : Folder),
          { ID := 10, Name := "docs", Path := "/1/10" },
          { ID := 11, Name := "notes", Path := "/1/10/11" }].map
            (fun a => { ID := a.ID, Name := a.Name }) ∧
      info.Breadcrumb.length =
        [({ ID := 1, Name := "root", Path := "/1" } : Folder),
          { ID := 10, Name := "docs", Path := "/1/10" },
          { ID := 11, Name := "notes", Path := "/1/10/11" }].length ∧
      ∀ i : Nat, info.Breadcrumb[i]? =
        ([({ ID := 1, Name := "root", Path := "/1" } : Folder),
          { ID := 10, Name := "docs", Path := "/1/10" },
          { ID := 11, Name := "notes", Path := "/1/10/11" }][i]?).map
            (fun a => ({ ID := a.ID, Name := a.Name } : BreadcrumbItem)) :=
  getFolderInfo_breadcrumb Demo.service Demo.world 11
    { ID := 11, Name := "notes", Path := "/1/10/11" }
    [{ ID := 1, Name := "root", Path := "/1" }, { ID := 10, Name := "docs", Path := "/1/10" },
      { ID := 11, Name := "notes", Path := "/1/10/11" }] none 0 0 rfl rfl

/-- C11: for a page `p` returned by the delegated list call, with `M` the number of distinct
non-nil folder ids among its records (`M ≤ N`, the number of records),
`ListArticlesWithFolder` calls `GetFolder` at most `M` times and `GetAncestors` at most `M`
times, each at most once per folder id and never for an id that no record of the page
refers to, however many records share an id. -/
theorem ListArticlesWithFolder_resolution_calls (s : Service σ) (mo : MapOrder) (w : World σ)
    (q : ListQuery) (folderID : Option Nat) (p : PageResult)
    (hpage : (delegatedListCall s w q folderID).1 = some p) :
    ∃ calls, (ListArticlesWithFolder s mo w q folderID).2.trace = w.trace ++ calls ∧
      distinctFolderIDs p.Records ≤ p.Records.length ∧
      (calls.filter Call.isGetFolder).length ≤ distinctFolderIDs p.Records ∧
      (calls.filter Call.isGetAncestors).length ≤ distinctFolderIDs p.Records ∧
      (∀ id, calls.count (.GetFolder id) ≤ 1 ∧ calls.count (.GetAncestors id) ≤ 1) ∧
      ∀ id, (∀ art ∈ p.Records, art.FolderID ≠ some id) →
        calls.count (.GetFolder id) = 0 ∧ calls.count (.GetAncestors id) = 0 := by
  obtain ⟨fcalls, bcalls, htrace, hfmem, hsub⟩ :=
    ListArticlesWithFolder_calls s mo w q folderID p hpage
  have hnodup : (mo.order (collectFolderIDs p.Records)).Nodup :=
    (mo.perm _).nodup_iff.mpr (collectFolderIDs_nodup p.Records)
  have hlen : (mo.order (collectFolderIDs p.Records)).length = distinctFolderIDs p.Records := by
    rw [distinctFolderIDs_eq, (mo.perm _).length_eq]
  have hf1 : fcalls.filter Call.isGetFolder = [] :=
    List.filter_eq_nil_iff.mpr fun c hc => by simp [(hfmem c hc).1]
  have hf2 : fcalls.filter Call.isGetAncestors = [] :=
    List.filter_eq_nil_iff.mpr fun c hc => by simp [(hfmem c hc).2]
  have hc1 : ∀ id, fcalls.count (Call.GetFolder id) = 0 := fun id =>
    List.count_eq_zero_of_not_mem fun hc => by
      have := (hfmem _ hc).1
      simp [Call.isGetFolder] at this
  have hc2 : ∀ id, fcalls.count (Call.GetAncestors id) = 0 := fun id =>
    List.count_eq_zero_of_not_mem fun hc => by
      have := (hfmem _ hc).2
      simp [Call.isGetAncestors] at this
  have hb1 : ∀ id, bcalls.count (Call.GetFolder id) ≤
      (mo.order (collectFolderIDs p.Records)).count id := fun id =>
    (hsub.count_le _).trans (le_of_eq (resolutionCalls_count _ id).1)
  have hb2 : ∀ id, bcalls.count (Call.GetAncestors id) ≤
      (mo.order (collectFolderIDs p.Records)).count id := fun id =>
    (hsub.count_le _).trans (le_of_eq (resolutionCalls_count _ id).2)
  refine ⟨fcalls ++ bcalls, htrace, distinctFolderIDs_le p.Records, ?_, ?_, ?_, ?_⟩
  · rw [List.filter_append, hf1, List.nil_append, ← hlen,
      ← (resolutionCalls_filter (mo.order (collectFolderIDs p.Records))).1]
    exact (hsub.filter _).length_le
  · rw [List.filter_append, hf2, List.nil_append, ← hlen,
      ← (resolutionCalls_filter (mo.order (collectFolderIDs p.Records))).2]
    exact (hsub.filter _).length_le
  · intro id
    have hone := List.nodup_iff_count_le_one.mp hnodup id
    rw [List.count_append, List.count_append, hc1, hc2, Nat.zero_add, Nat.zero_add]
    exact ⟨(hb1 id).trans hone, (hb2 id).trans hone⟩
  · intro id hnone
    have hnot : id ∉ mo.order (collectFolderIDs p.Records) := by
      rw [(mo.perm _).mem_iff, collectFolderIDs_mem]
      rintro ⟨art, hart, hfid⟩
      exact hnone art hart hfid
    have hzero := List.count_eq_zero_of_not_mem hnot
    rw [List.count_append, List.count_append, hc1, hc2, Nat.zero_add, Nat.zero_add]
    exact ⟨Nat.le_zero.mp (hzero ▸ hb1 id), Nat.le_zero.mp (hzero ▸ hb2 id)⟩

/-- Witness for C11: the unscoped page of the demo has five records and refers to the three
folders 10, 20 and 30. -/
theorem ListArticlesWithFolder_resolution_calls_witness :
    ∃ calls,
      (ListArticlesWithFolder Demo.service Demo.reversed Demo.world Demo.query none).2.trace =
        Demo.world.trace ++ calls ∧
      distinctFolderIDs
          (Demo.page [Demo.article 1, Demo.article 2, Demo.article 3, Demo.article 4,
            Demo.article 5]).Records ≤
        (Demo.page [Demo.article 1, Demo.article 2, Demo.article 3, Demo.article 4,
          Demo.article 5]).Records.length ∧
      (calls.filter Call.isGetFolder).length ≤
        distinctFolderIDs
          (Demo.page [Demo.article 1, Demo.article 2, Demo.article 3, Demo.article 4,
            Demo.article 5]).Records ∧
      (calls.filter Call.isGetAncestors).length ≤
        distinctFolderIDs
          (Demo.page [Demo.article 1, Demo.article 2, Demo.article 3, Demo.article 4,
            Demo.article 5]).Records ∧
      (∀ id, calls.count (.GetFolder id) ≤ 1 ∧ calls.count (.GetAncestors id) ≤ 1) ∧
      ∀ id,
        (∀ art ∈ (Demo.page [Demo.article 1, Demo.article 2, Demo.article 3, Demo.article 4,
            Demo.article 5]).Records, art.FolderID ≠ some id) →
        calls.count (.GetFolder id) = 0 ∧ calls.count (.GetAncestors id) = 0 :=
  ListArticlesWithFolder_resolution_calls Demo.service Demo.reversed Demo.world Demo.query none
    (Demo.page [Demo.article 1, Demo.article 2, Demo.article 3, Demo.article 4, Demo.article 5])
    rfl

/-- C17: with deterministic folder resolution, every record of a page that
`ListArticlesWithFolder` returns is what `GetArticleWithFolder` returns for its article (in
any world where the article fetch yields that article), so its `Folder` equals the `Folder`
of `GetArticleWithFolder`; the returned page is the same for every iteration order of the
folder-id map; and two records of the page with the same folder id carry equal `Folder`
values. -/
theorem ListArticlesWithFolder_matches_single (s : Service σ) (mo : MapOrder) (w : World σ)
    (q : ListQuery) (folderID : Option Nat) (page : PageResultWithFolder)
    (hdet : FolderDeterministic s)
    (hok : (ListArticlesWithFolder s mo w q folderID).1 = .returned (some page, none)) :
    (∀ (i : Nat) (rec : ArticleWithFolder), page.Records[i]? = some rec →
      ∀ (v : World σ) (articleID : Nat) (st1 : σ),
        s.articleService.GetArticle v.state articleID = ((some rec.Article, none), st1) →
        (GetArticleWithFolder s v articleID).1 = .returned (some rec, none)) ∧
    (∀ mo2 : MapOrder,
      (ListArticlesWithFolder s mo2 w q folderID).1 = .returned (some page, none)) ∧
    ∀ (i j : Nat) (rec1 rec2 : ArticleWithFolder), page.Records[i]? = some rec1 →
      page.Records[j]? = some rec2 → rec1.Article.FolderID = rec2.Article.FolderID →
      rec1.Folder = rec2.Folder := by
  obtain ⟨p, w1, folderMap, w2, hfetch, hbatch, hpage, _⟩ :=
    ListArticlesWithFolder_returned s mo w q folderID page none hok
  have hnodup : (mo.order (collectFolderIDs p.Records)).Nodup :=
    (mo.perm _).nodup_iff.mpr (collectFolderIDs_nodup p.Records)
  have hrecords : page.Records = assembleRecords folderMap p.Records := by rw [hpage]; rfl
  refine ⟨?_, ?_, ?_⟩
  · intro i rec hi v articleID st1 hart
    rw [hrecords] at hi
    obtain ⟨hidx, hfolder⟩ := assembleRecords_getElem folderMap p.Records i rec hi
    rcases rec with ⟨art, fol⟩
    simp only at hidx hfolder hart
    cases hfid : art.FolderID with
    | none =>
      rw [hfid] at hfolder
      simp only at hfolder
      subst hfolder
      simp [GetArticleWithFolder, World.invoke, hart, hfid]
    | some fid =>
      rw [hfid] at hfolder
      simp only at hfolder
      have hmem : fid ∈ mo.order (collectFolderIDs p.Records) :=
        (mo.perm _).mem_iff.mpr
          ((collectFolderIDs_mem p.Records fid).mpr ⟨art, List.getElem?_mem hidx, hfid⟩)
      obtain ⟨hget, hnp⟩ := batchLoop_get_det s hdet
        { state := st1, trace := v.trace ++ [.GetArticle articleID] }
        (mo.order (collectFolderIDs p.Records)) w1 folderMap w2 hbatch hnodup
      have hnp1 := hnp fid hmem
      rcases hg : getFolderInfo s { state := st1, trace := v.trace ++ [.GetArticle articleID] }
        fid with ⟨o, w4⟩
      rw [hg] at hnp1
      cases o with
      | panicked => exact absurd rfl hnp1
      | returned r =>
        rcases r with ⟨info, err⟩
        cases err with
        | none =>
          have hbound : folderMapGet folderMap fid = some info :=
            (hget fid info).mpr ⟨hmem, by rw [hg]⟩
          rw [hbound] at hfolder
          simp only at hfolder
          subst hfolder
          simp [GetArticleWithFolder, World.invoke, hart, hfid, hg]
        | some e =>
          have hunbound : folderMapGet folderMap fid = none := by
            cases hq : folderMapGet folderMap fid with
            | none => rfl
            | some x =>
              have hx := ((hget fid x).mp hq).2
              rw [hg] at hx
              simp at hx
          rw [hunbound] at hfolder
          simp only at hfolder
          subst hfolder
          simp [GetArticleWithFolder, World.invoke, hart, hfid, hg]
  · intro mo2
    have hnodup2 : (mo2.order (collectFolderIDs p.Records)).Nodup :=
      (mo2.perm _).nodup_iff.mpr (collectFolderIDs_nodup p.Records)
    have hmem12 : ∀ id, id ∈ mo2.order (collectFolderIDs p.Records) ↔
        id ∈ mo.order (collectFolderIDs p.Records) := fun id => by
      rw [(mo2.perm _).mem_iff, (mo.perm _).mem_iff]
    obtain ⟨hget, hnp⟩ := batchLoop_get_det s hdet w
      (mo.order (collectFolderIDs p.Records)) w1 folderMap w2 hbatch hnodup
    obtain ⟨m2, v2, hbatch2⟩ := batchLoop_returns_det s hdet w
      (mo2.order (collectFolderIDs p.Records))
      (fun id hid => hnp id ((hmem12 id).mp hid)) w1 []
    obtain ⟨hget2, _⟩ := batchLoop_get_det s hdet w
      (mo2.order (collectFolderIDs p.Records)) w1 m2 v2 hbatch2 hnodup2
    have hsame : ∀ id, folderMapGet m2 id = folderMapGet folderMap id := by
      intro id
      apply Option.ext
      intro info
      simp only [Option.mem_def]
      rw [hget id info, hget2 id info, hmem12 id]
    rw [ListArticlesWithFolder_of_fetched s mo2 w q folderID p w1 hfetch]
    have hb2 : batchGetFolderInfo s mo2 w1 (collectFolderIDs p.Records) = (.returned m2, v2) :=
      hbatch2
    rw [hb2, hpage]
    simp only [envelope, assembleRecords_congr m2 folderMap p.Records hsame]
  · intro i j rec1 rec2 h1 h2 hsame
    rw [hrecords] at h1 h2
    rw [(assembleRecords_getElem folderMap p.Records i rec1 h1).2,
      (assembleRecords_getElem folderMap p.Records j rec2 h2).2, hsame]

/-- Witness for C17: the unscoped listing of the demo, whose folder collaborator does not
read the store. -/
theorem ListArticlesWithFolder_matches_single_witness :
    (∀ (i : Nat) (rec : ArticleWithFolder), Demo.listing.Records[i]? = some rec →
      ∀ (v : World Nat) (articleID : Nat) (st1 : Nat),
        Demo.service.articleService.GetArticle v.state articleID =
          ((some rec.Article, none), st1) →
        (GetArticleWithFolder Demo.service v articleID).1 = .returned (some rec, none)) ∧
    (∀ mo2 : MapOrder,
      (ListArticlesWithFolder Demo.service mo2 Demo.world Demo.query none).1 =
        .returned (some Demo.listing, none)) ∧
    ∀ (i j : Nat) (rec1 rec2 : ArticleWithFolder), Demo.listing.Records[i]? = some rec1 →
      Demo.listing.Records[j]? = some rec2 → rec1.Article.FolderID = rec2.Article.FolderID →
      rec1.Folder = rec2.Folder :=
  ListArticlesWithFolder_matches_single Demo.service Demo.inOrder Demo.world Demo.query none
    Demo.listing
    ⟨fun st1 st2 id => by
        simp only [Demo.service, NewService, Demo.folders]
        split_ifs <;> rfl,
      fun st1 st2 id => by
        simp only [Demo.service, NewService, Demo.folders]
        split_ifs <;> rfl⟩
    rfl

end Claims

end ArticleFolder
